import Mathlib

/-!
Verification development for the whylogs `Logger`
(`src/whylogs/app/logger.py`): the segmented, time-rotating profile
cache and its rotation/flush protocol.

The Python code is shallowly embedded as pure Lean functions over an
explicit `LoggerState`.  Mutation is modeled by state passing, Python
exceptions by an `Option Err` component of each operation's result
(state changes performed before the raise survive, as in CPython), and
wall-clock reads by an explicit `now : Nat` (epoch seconds) argument.
`hashlib.sha256(...).hexdigest()` is modeled by an arbitrary function
parameter `sha : String → String` applied to the exact `json.dumps`
serialization the source builds, so every theorem below holds for the
real digest function.  `datetime` timestamps are modeled as epoch
seconds under a UTC environment; `strftime`/`strptime` round-tripping
at the rotation suffix's precision is modeled by truncation to the
suffix granularity (`trunc`).
-/

namespace Whylogs

/-- A scalar feature value, as appears in segment tags and tracked data.
`null` models Python `None`. -/
inductive Val where
  | str : String → Val
  | int : Int → Val
  | bool : Bool → Val
  | null : Val
deriving DecidableEq

/-- One `SegmentTag` dict `{"key": <featurename>, "value": <featurevalue>}`. -/
structure SegmentTag where
  key : String
  value : Val
deriving DecidableEq

/-- `Segment = List[SegmentTag]`. -/
abbrev Segment := List SegmentTag

/-- An element of the dynamically typed `segments` argument: either a key
name (string) or an explicit segment (list of tag dicts). -/
inductive SegElem where
  | str : String → SegElem
  | seg : Segment → SegElem
deriving DecidableEq

/-- JSON escaping for the two characters `json.dumps` must always escape.
(Control characters never occur in the inputs considered here.) -/
def jsonEscapeChar (c : Char) : String :=
  if c = '\\' then "\\\\" else if c = '"' then "\\\"" else String.singleton c

def jsonEscape (s : String) : String :=
  String.join (s.toList.map jsonEscapeChar)

/-- Serialization of a scalar as `json.dumps` renders it. -/
def jsonVal : Val → String
  | .str s => "\"" ++ jsonEscape s ++ "\""
  | .int n => toString n
  | .bool b => if b then "true" else "false"
  | .null => "null"

/-- `json.dumps` of one tag dict, with CPython's default separators and
insertion order `key` then `value`. -/
def jsonTag (t : SegmentTag) : String :=
  "\x7b\"key\": " ++ jsonVal (Val.str t.key) ++ ", \"value\": " ++ jsonVal t.value ++ "\x7d"

/-- `json.dumps(seg)` for a segment (a JSON array of tag objects). -/
def jsonDumps (seg : Segment) : String :=
  "[" ++ String.intercalate ", " (seg.map jsonTag) ++ "]"

/-- `hash_segment(seg) = hashlib.sha256(json.dumps(seg).encode()).hexdigest()`.
The digest function is an explicit parameter `sha`; the source applies a
fixed deterministic function there. -/
def hash_segment (sha : String → String) (seg : Segment) : String :=
  sha (jsonDumps seg)

/-- The comparison used by `sorted(segment, key=lambda x: x["key"])`. -/
def tagLe (a b : SegmentTag) : Prop := a.key ≤ b.key

instance : DecidableRel tagLe := fun a b => inferInstanceAs (Decidable (a.key ≤ b.key))

/-- Computable lexicographic `≤` on character lists (kernel-evaluable,
unlike the `String.le` instance); proven equivalent below. -/
def charsLe : List Char → List Char → Bool
  | [], _ => true
  | _ :: _, [] => false
  | c :: cs, d :: ds =>
    if c.val < d.val then true
    else if d.val < c.val then false
    else charsLe cs ds

/-- Computable `a ≤ b` on strings (CPython's code-point comparison). -/
def strLe (a b : String) : Bool := charsLe a.data b.data

/-- Stable insertion of a tag into a list already sorted by `key`
(inserts before the first strictly larger key, after equal keys seen
so far would already have been placed). -/
def insertTag (t : SegmentTag) : List SegmentTag → List SegmentTag
  | [] => [t]
  | u :: us => if strLe t.key u.key then t :: u :: us else u :: insertTag t us

/-- Stable sort by `key`, modeling Python's stable `sorted(..., key=lambda x: x["key"])`.
A stable sort's output is uniquely determined by the comparison and input
order, so this insertion sort agrees with CPython's Timsort. -/
def sortByKey : List SegmentTag → List SegmentTag
  | [] => []
  | t :: ts => insertTag t (sortByKey ts)

/-- The fingerprint `log_df_segment` computes and stores under:
`hash_segment(sorted(segment, key=lambda x: x["key"]))`. -/
def log_df_fingerprint (sha : String → String) (seg : Segment) : String :=
  hash_segment sha (sortByKey seg)

/-- The opaque `DatasetProfile` accumulator: its constructor arguments plus
the multiset of observations routed to it (`track_datum` / `track_dataframe`
append to `tracked`). -/
structure DatasetProfile where
  dataset_name : String
  dataset_timestamp : Option Nat
  session_timestamp : Nat
  tags : List (String × String)
  metadata : List (String × String)
  session_id : String
  tracked : List (String × Val)
deriving DecidableEq

/-- A registered `Writer` (Sink).  `failing = true` models a writer whose
`write` raises a delivery error on every call. -/
structure Writer where
  failing : Bool
deriving DecidableEq

/-- One entry of `self._profiles`: `{"full_profile": ..., "segmented_profiles": {...}}`.
The dict is an insertion-ordered association list keyed by fingerprint. -/
structure ProfileSet where
  full_profile : Option DatasetProfile
  segmented_profiles : List (String × DatasetProfile)
deriving DecidableEq

/-- A pandas dataframe, reduced to its column names and rows (each row an
association from column name to value). -/
structure DataFrame where
  cols : List String
  rows : List (List (String × Val))
deriving DecidableEq

/-- The Python exceptions the embedded code can raise. -/
inductive Err where
  | valueErrorBoth          -- "Cannot specify both features and feature_name"
  | typeErrorSegments       -- "segments type not supported"
  | typeErrorRotation       -- "Invalid choice of rotation time"
  | keyError                -- pandas groupby on a missing column
  | attributeError          -- attribute access on a non-profile object (str/None)
  | deliveryError           -- a Writer.write call raised
deriving DecidableEq

/-- Which accumulator a write call carries. -/
inductive WTarget where
  | full
  | seg (hash : String)
deriving DecidableEq

/-- One attempted `writer.write(profile, suffix)` call during a flush.
`fails = true` means this very call raises. -/
structure Attempt where
  widx : Nat
  target : WTarget
  profile : Option DatasetProfile
  suffix : Option String
  fails : Bool
deriving DecidableEq

/-- The mutable state of a `Logger` instance (its `self` fields).
`suffix_gran` is the precision, in seconds, of the `strftime` suffix
installed by `_set_rotation` (1 for "s", 60 for "m", ...); `init_default_ts`
is the module-load-time constant CPython froze as the default argument of
`_intialize_profiles`. -/
structure LoggerState where
  active : Bool
  session_timestamp : Nat
  dataset_name : String
  writers : List Writer
  verbose : Bool
  cache_size : Nat
  tags : List (String × String)
  session_id : String
  metadata : List (String × String)
  profile_full_dataset : Bool
  segments : Option (List SegElem)
  segment_type : Option String
  profiles : List (Option ProfileSet)
  interval : Nat
  with_rotation_time : Option String
  rotate_at : Nat
  suffix_gran : Nat
  init_default_ts : Nat
deriving DecidableEq

/-- Association-list lookup, modeling `dict.get(k, None)`. -/
def alistGet {α : Type} (k : String) : List (String × α) → Option α
  | [] => none
  | (k', v) :: rest => if k = k' then some v else alistGet k rest

/-- Update the value stored under `k` in place (models mutating the object
the dict maps `k` to). -/
def alistSet {α : Type} (k : String) (f : α → α) : List (String × α) → List (String × α)
  | [] => []
  | (k', v) :: rest => if k = k' then (k', f v) :: rest else (k', v) :: alistSet k f rest

/-- `d[k] = v` on a dict: replace in place if present, else append
(CPython preserves insertion order). -/
def dictAssign {α : Type} (k : String) (v : α) (l : List (String × α)) : List (String × α) :=
  if (alistGet k l).isSome then alistSet k (fun _ => v) l else l ++ [(k, v)]

/-- `self._profiles[-1]`, when present. -/
def lastSet (s : LoggerState) : Option ProfileSet :=
  (s.profiles.getLast?).join

/-- Segmented-profiles dict of the active profile set. -/
def lastSegs (s : LoggerState) : List (String × DatasetProfile) :=
  ((lastSet s).map ProfileSet.segmented_profiles).getD []

/-- Replace `self._profiles[-1]` (mutation of the active set in place). -/
def setLastSet (s : LoggerState) (ps : ProfileSet) : LoggerState :=
  { s with profiles := s.profiles.dropLast ++ [some ps] }

/-- `DatasetProfile.track_datum(name, value)`. -/
def track_datum (p : DatasetProfile) (name : String) (v : Val) : DatasetProfile :=
  { p with tracked := p.tracked ++ [(name, v)] }

/-- `DatasetProfile.track_dataframe(df)`. -/
def track_dataframe (p : DatasetProfile) (df : DataFrame) : DatasetProfile :=
  { p with tracked := p.tracked ++ df.rows.flatten }

/-- `Logger.full_profile_check`: `(self.segments is None) or
((self.segments is not None) and self.profile_full_dataset)`. -/
def full_profile_check (s : LoggerState) : Bool :=
  s.segments.isNone || (!s.segments.isNone && s.profile_full_dataset)

/-- Python truthiness of the `segments` field (`if self.segments:`). -/
def segTruthy : Option (List SegElem) → Bool
  | some (_ :: _) => true
  | _ => false

def elemIsStr : SegElem → Bool
  | .str _ => true
  | .seg _ => false

/-- `Logger.set_segments`. -/
def set_segments (s : LoggerState) (segments : Option (List SegElem)) : LoggerState :=
  match segments with
  | some l =>
    if l.isEmpty then { s with segments := none, segment_type := none }
    else if l.all elemIsStr then { s with segments := some l, segment_type := some "keys" }
    else { s with segments := some l, segment_type := some "set" }
  | none => { s with segments := none, segment_type := none }

/-- `Logger._intialize_profiles`: append a fresh profile set whose `full`
slot is populated iff `full_profile_check()` holds. -/
def intialize_profiles (s : LoggerState) (dataset_timestamp : Option Nat) : LoggerState :=
  let full : Option DatasetProfile :=
    if full_profile_check s then
      some { dataset_name := s.dataset_name
             dataset_timestamp := dataset_timestamp
             session_timestamp := s.session_timestamp
             tags := s.tags
             metadata := s.metadata
             session_id := s.session_id
             tracked := [] }
    else none
  { s with profiles := s.profiles ++ [some { full_profile := full, segmented_profiles := [] }] }

/-- `Logger.get_segment`: hash the segment exactly as supplied and look the
fingerprint up in the active segmented-profiles dict. -/
def get_segment (sha : String → String) (s : LoggerState) (segment : Segment) :
    Option DatasetProfile :=
  alistGet (hash_segment sha segment) (lastSegs s)

/-- Seconds per rotation unit, as `_set_rotation` assigns them. -/
def granOf : String → Option Nat
  | "s" => some 1
  | "m" => some 60
  | "h" => some 3600
  | "d" => some (60 * 60 * 24)
  | _ => none

/-- `Logger.rotate_when`. -/
def rotate_when (s : LoggerState) (time : Nat) : Nat :=
  time + s.interval

/-- `Logger._set_rotation` (raises `TypeError` on an invalid unit). -/
def set_rotation (s : LoggerState) (wrt : Option String) (now : Nat) :
    Except Err LoggerState :=
  match wrt with
  | none => .ok s
  | some u =>
    match granOf u.toLower with
    | none => .error Err.typeErrorRotation
    | some g =>
      let s1 := { s with with_rotation_time := some u.toLower
                         suffix_gran := g
                         interval := g * s.interval }
      .ok { s1 with rotate_at := rotate_when s1 now }

/-- `Logger.__init__`.  `now` models the construction-time clock reads,
`module_ts` the module-load-time constant (see `LoggerState.init_default_ts`). -/
def mkLogger (session_id dataset_name : String) (dataset_timestamp : Option Nat)
    (session_timestamp : Option Nat) (tags : List (String × String))
    (metadata : List (String × String)) (writers : List Writer) (verbose : Bool)
    (with_rotation_time : Option String) (interval : Nat) (cache_size : Nat)
    (segments : Option (List SegElem)) (profile_full_dataset : Bool)
    (now : Nat) (module_ts : Nat) : Except Err LoggerState :=
  let s0 : LoggerState :=
    { active := true
      session_timestamp := session_timestamp.getD now
      dataset_name := dataset_name
      writers := writers
      verbose := verbose
      cache_size := cache_size
      tags := tags
      session_id := session_id
      metadata := metadata
      profile_full_dataset := profile_full_dataset
      segments := none
      segment_type := none
      profiles := []
      interval := interval
      with_rotation_time := with_rotation_time
      rotate_at := 0
      suffix_gran := 1
      init_default_ts := module_ts }
  let s1 := set_segments s0 segments
  let s2 := intialize_profiles s1 dataset_timestamp
  set_rotation s2 with_rotation_time now

/-- `Logger.should_rotate`. -/
def should_rotate (s : LoggerState) (now : Nat) : Bool :=
  match s.with_rotation_time with
  | none => false
  | some _ => s.rotate_at ≤ now

/-- Truncation of an epoch second to the suffix granularity: the effect of
`strptime(strftime(t, suffix), suffix)` under a UTC environment. -/
def trunc (g t : Nat) : Nat :=
  t / g * g

/-- The rendered rotation suffix `"." + time_tuple.strftime(self.suffix)`,
abstracted to the truncated epoch second it displays. -/
def suffixString (label : Nat) : String :=
  "." ++ toString label

/-- The sequence of `writer.write` calls one writer receives during
`flush`, in program order: the full profile first (when
`full_profile_check()`), then every segmented profile. -/
def writerPlanned (s : LoggerState) (i : Nat) (w : Writer) (rotation_suffix : Option String) :
    List Attempt :=
  (if full_profile_check s then
     [{ widx := i, target := WTarget.full
        profile := (lastSet s).bind ProfileSet.full_profile
        suffix := rotation_suffix, fails := w.failing }]
   else []) ++
  (if s.segments.isSome then
     (lastSegs s).map (fun kv =>
       { widx := i, target := WTarget.seg kv.1
         profile := some kv.2
         suffix := some ("_" ++ kv.1 ++ (rotation_suffix.getD ""))
         fails := w.failing })
   else [])

/-- All write calls a complete `flush` over writers `ws` would issue,
writer index starting at `i`. -/
def plannedFrom (s : LoggerState) (rotation_suffix : Option String) (i : Nat) :
    List Writer → List Attempt
  | [] => []
  | w :: ws => writerPlanned s i w rotation_suffix ++ plannedFrom s rotation_suffix (i + 1) ws

/-- All write calls a complete `flush` would issue, over all writers in
registration order. -/
def planned (s : LoggerState) (rotation_suffix : Option String) : List Attempt :=
  plannedFrom s rotation_suffix 0 s.writers

/-- Execute planned calls in order; a raising call is recorded as attempted
and the exception propagates, so nothing after it runs. -/
def runCalls : List Attempt → List Attempt × Option Err
  | [] => ([], none)
  | a :: rest =>
    if a.fails then ([a], some Err.deliveryError)
    else
      let r := runCalls rest
      (a :: r.1, r.2)

/-- `Logger.flush`. -/
def flush (s : LoggerState) (rotation_suffix : Option String) : List Attempt × Option Err :=
  if s.active = false then ([], none)
  else runCalls (planned s rotation_suffix)

/-- Closed form of the catch-up loop `while rotate_at <= now: rotate_at += interval`.
With `interval = 0` the source loop diverges; that case is unreachable under
the `interval > 0` precondition and is modeled as returning `r` unchanged. -/
def whileRotate (r now interval : Nat) : Nat :=
  if interval = 0 then r
  else if r ≤ now then r + ((now - r) / interval + 1) * interval
  else r

/-- The window-start label one rotation emits: `rotate_at - interval`
pushed through the `strftime`/`strptime` round trip at the suffix's
precision. -/
def rotationLabel (s : LoggerState) : Nat :=
  trunc s.suffix_gran (s.rotate_at - s.interval)

/-- The full-profile timestamp rewrite of `_rotate_time` (guarded by the
same condition as `full_profile_check`). -/
def stampFull (label : Nat) (s : LoggerState) (ps : ProfileSet) : ProfileSet :=
  if full_profile_check s then
    { ps with full_profile :=
        ps.full_profile.map (fun p => { p with dataset_timestamp := some label }) }
  else ps

/-- The segment-profiles timestamp rewrite of `_rotate_time`. -/
def stampSegs (label : Nat) (s : LoggerState) (ps : ProfileSet) : ProfileSet :=
  let stamped := ps.segmented_profiles.map
    (fun kv => (kv.1, { kv.2 with dataset_timestamp := some label }))
  if s.segments.isSome then { ps with segmented_profiles := stamped } else ps

/-- The retained-history truncation
`if len(profiles) > cache_size: profiles[-cache_size-1] = None`. -/
def trimCache (s : LoggerState) : LoggerState :=
  if s.profiles.length > s.cache_size then
    { s with profiles := s.profiles.set (s.profiles.length - s.cache_size - 1) none }
  else s

/-- `Logger._rotate_time`.  Returns the post-call state, the write calls
attempted by the embedded `flush`, and the propagated exception if any. -/
def rotate_time (s : LoggerState) (now : Nat) : LoggerState × List Attempt × Option Err :=
  let log_datetime := rotationLabel s
  let rotation_suffix := suffixString log_datetime
  match lastSet s with
  | none => (s, [], some Err.attributeError)
  | some ps =>
    if full_profile_check s && ps.full_profile.isNone then
      -- `None.dataset_timestamp = ...` raises
      (s, [], some Err.attributeError)
    else
      let s1 := setLastSet s (stampSegs log_datetime s (stampFull log_datetime s ps))
      let fr := flush s1 (some rotation_suffix)
      match fr.2 with
      | some e => (s1, fr.1, some e)
      | none =>
        let s2 := trimCache s1
        let s3 := intialize_profiles s2 (some s2.init_default_ts)
        let s4 := { s3 with rotate_at := whileRotate (rotate_when s3 now) now s3.interval }
        (s4, fr.1, none)

/-- `Logger.log_df_segment`: canonicalize the segment by key-sorting, then
create (tagging with the canonical serialization) or update the accumulator
stored under the canonical fingerprint. -/
def log_df_segment (sha : String → String) (s : LoggerState) (now : Nat)
    (df : DataFrame) (segment : Segment) : LoggerState :=
  let sorted_seg := sortByKey segment
  match lastSet s with
  | none => s
  | some ps =>
    match get_segment sha s sorted_seg with
    | none =>
      let prof : DatasetProfile :=
        { dataset_name := s.dataset_name
          dataset_timestamp := some now
          session_timestamp := s.session_timestamp
          tags := s.tags ++ [("segment", jsonDumps sorted_seg)]
          metadata := s.metadata
          session_id := s.session_id
          tracked := [] }
      let prof := track_dataframe prof df
      let h := hash_segment sha sorted_seg
      setLastSet s { ps with segmented_profiles := dictAssign h prof ps.segmented_profiles }
    | some _ =>
      let h := hash_segment sha sorted_seg
      let updated := alistSet h (fun p => track_dataframe p df) ps.segmented_profiles
      setLastSet s { ps with segmented_profiles := updated }

/-- The key names of the configured `segments` when `segment_type = "keys"`
(set_segments guarantees every element is a string then). -/
def keyStrs (l : List SegElem) : List String :=
  l.filterMap fun e => match e with
    | .str k => some k
    | .seg _ => none

/-- The explicit segments of the configured `segments` when
`segment_type = "set"`. -/
def segsOnly (l : List SegElem) : List Segment :=
  l.filterMap fun e => match e with
    | .seg t => some t
    | .str _ => none

/-- The tuple of values a row has for the given key columns (none when the
row is missing one of them; groupby drops such rows). -/
def rowTuple (ks : List String) (r : List (String × Val)) : Option (List Val) :=
  ks.mapM (fun k => alistGet k r)

/-- Distinct group keys in first-occurrence order. -/
def dedupKeep : List (List Val) → List (List Val)
  | [] => []
  | t :: ts => t :: dedupKeep (ts.filter (fun u => u ≠ t))
termination_by l => l.length
decreasing_by
  exact Nat.lt_succ_of_le (List.length_filter_le _ _)

/-- `Logger.log_segments_keys`: `data.groupby(self.segments)` (KeyError when
a configured key column is absent), then one `log_df_segment` per distinct
key tuple with the matching row subset. -/
def log_segments_keys (sha : String → String) (s : LoggerState) (now : Nat)
    (df : DataFrame) : LoggerState × Option Err :=
  let ks := keyStrs (s.segments.getD [])
  if ¬ ks.all (fun k => df.cols.contains k) then (s, some Err.keyError)
  else
    let tuples := dedupKeep (df.rows.filterMap (rowTuple ks))
    let s' := tuples.foldl
      (fun st tup =>
        let seg_tags : Segment := (ks.zip tup).map (fun kv => ⟨kv.1, kv.2⟩)
        let sub : DataFrame :=
          { cols := df.cols, rows := df.rows.filter (fun r => rowTuple ks r = some tup) }
        log_df_segment sha st now sub seg_tags)
      s
    (s', none)

/-- `Logger.log_fixed_segments`: group by each configured segment's keys
separately; skip segments whose value tuple is absent from the batch; a
missing key column raises KeyError (uncaught here). -/
def log_fixed_segments (sha : String → String) (s : LoggerState) (now : Nat)
    (df : DataFrame) : LoggerState × Option Err :=
  (segsOnly (s.segments.getD [])).foldl
    (fun acc tag =>
      match acc.2 with
      | some _ => acc
      | none =>
        let segment_keys := tag.map SegmentTag.key
        let segvals := tag.map SegmentTag.value
        if ¬ segment_keys.all (fun k => df.cols.contains k) then (acc.1, some Err.keyError)
        else if df.rows.any (fun r => rowTuple segment_keys r = some segvals) then
          let sub : DataFrame :=
            { cols := df.cols
              rows := df.rows.filter (fun r => rowTuple segment_keys r = some segvals) }
          (log_df_segment sha acc.1 now sub tag, none)
        else acc)
    (s, none)

/-- `Logger.log_segments`: dispatch on `segment_type`; any other value
raises `TypeError("segments type not supported")`. -/
def log_segments (sha : String → String) (s : LoggerState) (now : Nat)
    (df : DataFrame) : LoggerState × Option Err :=
  match s.segment_type with
  | some "keys" => log_segments_keys sha s now df
  | some "set" => log_fixed_segments sha s now df
  | _ => (s, some Err.typeErrorSegments)

/-- The full-profile bulk accumulation step shared by `log_dataframe`
(`self._profiles[-1]["full_profile"].track_dataframe(df)` under
`full_profile_check()`, raising on a missing profile object). -/
def trackFullDF (s : LoggerState) (df : DataFrame) : LoggerState × Option Err :=
  if full_profile_check s then
    match lastSet s with
    | some ps =>
      match ps.full_profile with
      | some p =>
        (setLastSet s { ps with full_profile := some (track_dataframe p df) }, none)
      | none => (s, some Err.attributeError)
    | none => (s, some Err.attributeError)
  else (s, none)

/-- The body of `log_dataframe` after the active check and the
rotate-if-due preamble: the unconditional `profile_full_dataset`
assignment followed by the conditional `set_segments`. -/
def ldfPrefix (s1 : LoggerState) (segs : Option (List SegElem)) (pfd : Bool) : LoggerState :=
  let s2 := { s1 with profile_full_dataset := pfd }
  if segs.isSome then set_segments s2 segs else s2

/-- The rest of the `log_dataframe` body: full-profile bulk tracking, then
segment routing when segments are configured. -/
def ldfCore (sha : String → String) (s1 : LoggerState) (now : Nat) (df : DataFrame)
    (segments : Option (List SegElem)) (profile_full_dataset : Bool) :
    LoggerState × Option Err :=
  match trackFullDF (ldfPrefix s1 segments profile_full_dataset) df with
  | (s4, some e) => (s4, some e)
  | (s4, none) =>
    if segTruthy s4.segments then log_segments sha s4 now df else (s4, none)

/-- `Logger.log_dataframe(df, segments, profile_full_dataset)`.  Note the
unconditional `self.profile_full_dataset = profile_full_dataset` after the
rotate-if-due preamble. -/
def log_dataframe (sha : String → String) (s : LoggerState) (now : Nat) (df : DataFrame)
    (segments : Option (List SegElem)) (profile_full_dataset : Bool) :
    LoggerState × List Attempt × Option Err :=
  if s.active = false then (s, [], none)
  else
    let rot := if should_rotate s now then rotate_time s now else (s, [], none)
    match rot with
    | (s1, ev, some e) => (s1, ev, some e)
    | (s1, ev, none) =>
      let r := ldfCore sha s1 now df segments profile_full_dataset
      (r.1, ev, r.2)

/-- `Logger.log_segment_datum`.  In the `"keys"` branch for a feature that
is not a configured key, the source iterates the segmented-profiles dict
directly — which yields its *keys* (hash strings) — and calls
`track_datum` on each, so the first iteration raises `AttributeError`
whenever any segment accumulator exists. -/
def log_segment_datum (sha : String → String) (s : LoggerState)
    (feature_name : String) (value : Val) : LoggerState × Option Err :=
  let segment : Segment := [⟨feature_name, value⟩]
  let segment_profile := get_segment sha s segment
  match s.segment_type with
  | some "keys" =>
    if SegElem.str feature_name ∈ s.segments.getD [] then
      match segment_profile with
      | none => (s, none)
      | some _ =>
        match lastSet s with
        | none => (s, none)
        | some ps =>
          let updated := alistSet (hash_segment sha segment)
            (fun p => track_datum p feature_name value) ps.segmented_profiles
          (setLastSet s { ps with segmented_profiles := updated }, none)
    else
      if (lastSegs s).isEmpty then (s, none) else (s, some Err.attributeError)
  | some "set" =>
    if ¬ SegElem.seg segment ∈ s.segments.getD [] then (s, none)
    else
      match segment_profile with
      | none => (s, some Err.attributeError)   -- `None.track_datum(...)`
      | some _ =>
        match lastSet s with
        | none => (s, none)
        | some ps =>
          let updated := alistSet (hash_segment sha segment)
            (fun p => track_datum p feature_name value) ps.segmented_profiles
          (setLastSet s { ps with segmented_profiles := updated }, none)
  | _ => (s, none)

/-- `pd.DataFrame([features])`: a one-row frame whose columns are the map's
keys. -/
def dfOfFeatures (features : List (String × Val)) : DataFrame :=
  { cols := features.map Prod.fst, rows := [features] }

/-- The single-observation full-profile step of `log`
(`track_datum` under `full_profile_check()`). -/
def trackFullDatum (s : LoggerState) (fn : String) (v : Val) : LoggerState × Option Err :=
  if full_profile_check s then
    match lastSet s with
    | some ps =>
      match ps.full_profile with
      | some p =>
        (setLastSet s { ps with full_profile := some (track_datum p fn v) }, none)
      | none => (s, some Err.attributeError)
    | none => (s, some Err.attributeError)
  else (s, none)

/-- The single-observation body of `log` after the preamble and the
input-shape checks. -/
def logSingleCore (sha : String → String) (s1 : LoggerState) (fn : String) (v : Val) :
    LoggerState × Option Err :=
  match trackFullDatum s1 fn v with
  | (s2, some e) => (s2, some e)
  | (s2, none) =>
    if segTruthy s2.segments then log_segment_datum sha s2 fn v else (s2, none)

/-- `Logger.log(features, feature_name, value)`. -/
def log (sha : String → String) (s : LoggerState) (now : Nat)
    (features : Option (List (String × Val))) (feature_name : Option String)
    (value : Val) : LoggerState × List Attempt × Option Err :=
  if s.active = false then (s, [], none)
  else
    let rot := if should_rotate s now then rotate_time s now else (s, [], none)
    match rot with
    | (s1, ev, some e) => (s1, ev, some e)
    | (s1, ev, none) =>
      if features.isNone && feature_name.isNone then (s1, ev, none)
      else if features.isSome && feature_name.isSome then (s1, ev, some Err.valueErrorBoth)
      else
        match features with
        | some fs =>
          let r := log_dataframe sha s1 now (dfOfFeatures fs) none false
          (r.1, ev ++ r.2.1, r.2.2)
        | none =>
          let r := logSingleCore sha s1 (feature_name.getD "") value
          (r.1, ev, r.2)

/-- `Logger.close`.  The final `self._profiles = None` is not representable
in the typed state; it is observationally equivalent to leaving the popped
list in place because every public operation first checks `_active`. -/
def close (s : LoggerState) (now : Nat) : LoggerState × List Attempt × Option Err :=
  if s.active = false then (s, [], none)
  else
    match s.with_rotation_time with
    | none =>
      let f := flush s none
      match f.2 with
      | some e => (s, f.1, some e)
      | none => ({ s with active := false }, f.1, none)
    | some _ =>
      let r := rotate_time s now
      match r.2.2 with
      | some e => (r.1, r.2.1, some e)
      | none => ({ r.1 with active := false, profiles := r.1.profiles.dropLast }, r.2.1, none)

/-- One public Logger call, for reasoning about whole histories. -/
inductive Op where
  | logSingle (now : Nat) (name : String) (v : Val)
  | logMap (now : Nat) (features : List (String × Val))
  | logDF (now : Nat) (df : DataFrame) (segments : Option (List SegElem)) (pfd : Bool)
  | closeOp (now : Nat)
deriving DecidableEq

/-- Dispatch one public call. -/
def step (sha : String → String) (s : LoggerState) : Op → LoggerState × List Attempt × Option Err
  | .logSingle now n v => log sha s now none (some n) v
  | .logMap now fs => log sha s now (some fs) none Val.null
  | .logDF now df segs pfd => log_dataframe sha s now df segs pfd
  | .closeOp now => close s now

/-- Run a history of public calls; an exception in one call does not stop
the embedding application from making the next call. -/
def run (sha : String → String) (s : LoggerState) : List Op → LoggerState × List Attempt
  | [] => (s, [])
  | op :: ops =>
    let r := step sha s op
    let rest := run sha r.1 ops
    (rest.1, r.2.1 ++ rest.2)

/-- A sequence of forced rotations (`_rotate_time` at the given times),
collecting each rotation's write calls separately. -/
def runRotations (s : LoggerState) : List Nat → LoggerState × List (List Attempt)
  | [] => (s, [])
  | t :: ts =>
    let r := rotate_time s t
    let rest := runRotations r.1 ts
    (rest.1, r.2.1 :: rest.2)

/-- Equality of the constructor-time configuration fields of two Logger
states (everything `__init__` sets apart from the segmentation policy,
`profile_full_dataset`, the profile list, and the rotation schedule). -/
def cfgEq (a b : LoggerState) : Prop :=
  a.dataset_name = b.dataset_name ∧ a.session_id = b.session_id ∧
  a.session_timestamp = b.session_timestamp ∧ a.tags = b.tags ∧
  a.metadata = b.metadata ∧ a.writers = b.writers ∧ a.verbose = b.verbose ∧
  a.cache_size = b.cache_size ∧ a.interval = b.interval ∧
  a.with_rotation_time = b.with_rotation_time

/-- Two states that agree on every field except `profiles` and
`rotate_at`. -/
def sameCfg (a b : LoggerState) : Prop :=
  cfgEq a b ∧ a.segments = b.segments ∧ a.segment_type = b.segment_type ∧
  a.profile_full_dataset = b.profile_full_dataset ∧ a.active = b.active

/-- A profile-set slot holds no full accumulator. -/
def optFullNone : Option ProfileSet → Bool
  | some ps => ps.full_profile.isNone
  | none => true

/-- No full accumulator exists anywhere in the retained history. -/
def fullsNone (s : LoggerState) : Prop :=
  ∀ e ∈ s.profiles, optFullNone e = true

/-- The suppressed-full-profile regime: segmentation configured,
`profile_full_dataset` off, and no full accumulator anywhere. -/
def noFullState (s : LoggerState) : Prop :=
  s.segments.isSome = true ∧ s.profile_full_dataset = false ∧ fullsNone s

/-- The active profile set exists and holds a full accumulator. -/
def hasFullLast (s : LoggerState) : Bool :=
  match lastSet s with
  | some ps => ps.full_profile.isSome
  | none => false

/-- The kept-full-profile regime: segmentation configured,
`profile_full_dataset` on, and the active set holds a full accumulator. -/
def fullOnState (s : LoggerState) : Prop :=
  s.segments.isSome = true ∧ s.profile_full_dataset = true ∧ hasFullLast s = true

/-- Public calls compatible with keeping `profile_full_dataset = False`
and segmentation configured: batch ingestion must not pass
`profile_full_dataset=True` and must not clear the segments. -/
def okFalseOp : Op → Bool
  | .logDF _ _ segs pfd => !pfd && (segs.isNone || segTruthy segs)
  | _ => true

/-- Public calls compatible with keeping `profile_full_dataset = True`
throughout: batch ingestion must pass `profile_full_dataset=True`
explicitly (`log(features=...)` and `log_csv`-style defaulting calls
reset the flag, see C8), and must not clear the segments. -/
def okTrueOp : Op → Bool
  | .logDF _ _ segs pfd => pfd && (segs.isNone || segTruthy segs)
  | .logMap _ _ => false
  | .closeOp _ => false
  | _ => true

/-- The invariant `set_segments` establishes: a configured (hence
non-empty) segments list always comes with a supported `segment_type`. -/
def segInv (s : LoggerState) : Prop :=
  match s.segments with
  | none => True
  | some l => l ≠ [] ∧ (s.segment_type = some "keys" ∨ s.segment_type = some "set")

instance (s : LoggerState) : Decidable (segInv s) :=
  match hs : s.segments with
  | none => isTrue (by unfold segInv; rw [hs]; trivial)
  | some l =>
    decidable_of_iff
      (l ≠ [] ∧ (s.segment_type = some "keys" ∨ s.segment_type = some "set"))
      (by unfold segInv; rw [hs])

/-- The shape of the retained-profile history of an unsegmented Logger
with `cache_size = 1`: released `None` slots, then at most one retired
set, then the active set (which holds a full accumulator). -/
def histShape (s : LoggerState) : Prop :=
  (∃ k a, s.profiles = List.replicate k none ++ [some a] ∧
    a.full_profile.isSome = true) ∨
  (∃ k a b, s.profiles = List.replicate k none ++ [some a, some b] ∧
    b.full_profile.isSome = true)

/-- The standing hypotheses of the bounded-retention scenario. -/
def rotInv (s : LoggerState) : Prop :=
  s.active = true ∧ s.cache_size = 1 ∧ s.segments = none ∧
  (∀ w ∈ s.writers, w.failing = false) ∧ histShape s

/-- An empty accumulator used by the concrete scenarios below. -/
def exProfile : DatasetProfile :=
  { dataset_name := "d", dataset_timestamp := none, session_timestamp := 0
    tags := [], metadata := [], session_id := "sess", tracked := [] }

/-- A minimal live Logger with one active profile set holding a full
accumulator, no segmentation, and no rotation configured. -/
def baseState : LoggerState :=
  { active := true, session_timestamp := 0, dataset_name := "d"
    writers := [], verbose := false, cache_size := 1, tags := []
    session_id := "sess", metadata := [], profile_full_dataset := false
    segments := none, segment_type := none
    profiles := [some { full_profile := some exProfile, segmented_profiles := [] }]
    interval := 1, with_rotation_time := none, rotate_at := 0
    suffix_gran := 1, init_default_ts := 0 }

/-- Two registered sinks, the first of which raises on every write. -/
def c1State : LoggerState :=
  { baseState with writers := [{ failing := true }, { failing := false }] }

/-- `ByKeys(["region"])` segmentation with one existing segment accumulator
and no full profile. -/
def c2State : LoggerState :=
  { baseState with
      segments := some [SegElem.str "region"]
      segment_type := some "keys"
      profiles := [some { full_profile := none
                          segmented_profiles := [("h1", exProfile)] }] }

/-- Second-granularity rotation due at time 10, one healthy sink. -/
def c3State : LoggerState :=
  { baseState with with_rotation_time := some "s", rotate_at := 10
                   writers := [{ failing := false }] }

/-- Minute-granularity rotation (`interval = 60`) whose window started at
epoch second 30 (`rotate_at = 90`), one healthy sink. -/
def c4State : LoggerState :=
  { baseState with with_rotation_time := some "m", suffix_gran := 60
                   interval := 60, rotate_at := 90
                   writers := [{ failing := false }] }

/-- Unsegmented second-granularity rotation with `cache_size = 1`, one
healthy sink, and a full accumulator in the active set. -/
def c7State : LoggerState :=
  { baseState with with_rotation_time := some "s", rotate_at := 10
                   writers := [{ failing := false }] }

/-- Segmentation configured, `profile_full_dataset` on, the active set
holding a full accumulator, and one healthy sink. -/
def c6State : LoggerState :=
  { baseState with
      segments := some [SegElem.str "k"]
      segment_type := some "keys"
      profile_full_dataset := true
      writers := [{ failing := false }] }

/-- The state `_rotate_time` leaves behind on its successful path. -/
def rotatedState (s : LoggerState) (ps : ProfileSet) (now : Nat) : LoggerState :=
  let s1 := setLastSet s (stampSegs (rotationLabel s) s (stampFull (rotationLabel s) s ps))
  let s2 := trimCache s1
  let s3 := intialize_profiles s2 (some s2.init_default_ts)
  { s3 with rotate_at := whileRotate (rotate_when s3 now) now s3.interval }

/-- The write calls `_rotate_time` issues on its successful path. -/
def rotatedPlanned (s : LoggerState) (ps : ProfileSet) : List Attempt :=
  planned (setLastSet s (stampSegs (rotationLabel s) s (stampFull (rotationLabel s) s ps)))
    (some (suffixString (rotationLabel s)))

def c4WitnessState : LoggerState :=
  { baseState with with_rotation_time := some "s", interval := 10, rotate_at := 20
                   writers := [{ failing := false }] }

/-- A Logger constructed with `profile_full_dataset = True`. -/
def c8State : LoggerState :=
  { baseState with profile_full_dataset := true }

/-- A live Logger whose active set has no accumulators yet. -/
def c9State : LoggerState :=
  { baseState with profiles := [some { full_profile := none, segmented_profiles := [] }] }

theorem not_chars_lt_nil (ds : List Char) : ¬ ds < ([] : List Char) := by
  intro h
  cases h

theorem nil_chars_lt_cons (c : Char) (cs : List Char) : ([] : List Char) < c :: cs :=
  List.Lex.nil

theorem cons_chars_lt_cons_iff (c d : Char) (cs ds : List Char) :
    ((d :: ds : List Char) < c :: cs) ↔ (d < c ∨ (d = c ∧ ds < cs)) := by
  constructor
  · intro h
    cases h with
    | rel h' => exact Or.inl h'
    | cons h' => exact Or.inr ⟨rfl, h'⟩
  · rintro (h | ⟨rfl, h⟩)
    · exact List.Lex.rel h
    · exact List.Lex.cons h

theorem charsLe_iff : ∀ cs ds : List Char, charsLe cs ds = true ↔ ¬ ds < cs
  | [], ds => by
    simp only [charsLe]
    simp [not_chars_lt_nil ds]
  | c :: cs, [] => by
    simp [charsLe, nil_chars_lt_cons]
  | c :: cs, d :: ds => by
    rw [cons_chars_lt_cons_iff]
    show (if c.val < d.val then true else if d.val < c.val then false else charsLe cs ds) = true ↔ _
    by_cases h1 : c.val < d.val
    · rw [if_pos h1]
      simp only [true_iff]
      rintro (h | ⟨he, _⟩)
      · have ha : d.val.val.val < c.val.val.val := Fin.lt_iff_val_lt_val.mp h
        have hb : c.val.val.val < d.val.val.val := Fin.lt_iff_val_lt_val.mp h1
        omega
      · rw [he] at h1
        have hb : c.val.val.val < c.val.val.val := Fin.lt_iff_val_lt_val.mp h1
        omega
    · by_cases h2 : d.val < c.val
      · rw [if_neg h1, if_pos h2]
        constructor
        · intro h
          exact absurd h (by simp)
        · intro hnot
          exact absurd (Or.inl h2) hnot
      · rw [if_neg h1, if_neg h2, charsLe_iff cs ds]
        have hdc : d = c := by
          have g1 : ¬ c.val.val.val < d.val.val.val :=
            fun h => h1 (Fin.lt_iff_val_lt_val.mpr h)
          have g2 : ¬ d.val.val.val < c.val.val.val :=
            fun h => h2 (Fin.lt_iff_val_lt_val.mpr h)
          exact (Char.eq_of_val_eq (UInt32.eq_of_val_eq (Fin.ext (by omega)))).symm
        constructor
        · intro hnot
          rintro (h | ⟨_, h3⟩)
          · exact h2 h
          · exact hnot h3
        · intro hnot h3
          exact hnot (Or.inr ⟨hdc, h3⟩)

theorem strLe_iff (a b : String) : strLe a b = true ↔ a ≤ b := by
  rw [strLe, charsLe_iff]
  rw [show (b.data < a.data) = (b.toList < a.toList) from rfl]
  rw [← String.lt_iff_toList_lt]
  exact not_lt

theorem insertTag_perm (t : SegmentTag) : ∀ l, List.Perm (insertTag t l) (t :: l)
  | [] => by simp [insertTag]
  | u :: us => by
    simp only [insertTag]
    by_cases h : strLe t.key u.key = true
    · simp [h]
    · rw [if_neg h]
      exact ((insertTag_perm t us).cons u).trans (List.Perm.swap t u us)

theorem sortByKey_perm : ∀ l, List.Perm (sortByKey l) l
  | [] => List.Perm.refl _
  | t :: ts => by
    simpa [sortByKey] using (insertTag_perm t (sortByKey ts)).trans ((sortByKey_perm ts).cons t)

theorem insertTag_sorted (t : SegmentTag) :
    ∀ l, l.Pairwise tagLe → (insertTag t l).Pairwise tagLe
  | [], _ => by simp [insertTag, tagLe]
  | u :: us, h => by
    rcases List.pairwise_cons.mp h with ⟨hu, hus⟩
    simp only [insertTag]
    by_cases hle : strLe t.key u.key = true
    · rw [if_pos hle]
      have hle' : t.key ≤ u.key := (strLe_iff _ _).mp hle
      refine List.pairwise_cons.mpr ⟨?_, h⟩
      intro b hb
      rcases List.mem_cons.mp hb with hb | hb
      · subst hb; exact hle'
      · exact le_trans hle' (hu b hb)
    · rw [if_neg hle]
      have hgt : u.key ≤ t.key :=
        le_of_not_le (fun hc => hle ((strLe_iff _ _).mpr hc))
      refine List.pairwise_cons.mpr ⟨?_, insertTag_sorted t us hus⟩
      intro b hb
      have hb' : b ∈ t :: us := (insertTag_perm t us).mem_iff.mp hb
      rcases List.mem_cons.mp hb' with hb' | hb'
      · subst hb'; exact hgt
      · exact hu b hb'

theorem sortByKey_sorted : ∀ l, (sortByKey l).Pairwise tagLe
  | [] => List.Pairwise.nil
  | t :: ts => insertTag_sorted t (sortByKey ts) (sortByKey_sorted ts)

/-- Two sorted lists of tags that are permutations of each other and have
no duplicate feature names are equal. -/
theorem sorted_nodup_eq :
    ∀ l₁ l₂ : List SegmentTag, List.Perm l₁ l₂ → l₁.Pairwise tagLe → l₂.Pairwise tagLe →
      (l₁.map SegmentTag.key).Nodup → l₁ = l₂
  | [], l₂, hp, _, _, _ => (hp.nil_eq).symm ▸ rfl
  | t :: ts, [], hp, _, _, _ => absurd hp.symm.nil_eq (by simp)
  | t :: ts, t' :: ts', hp, h₁, h₂, hnd => by
    rcases List.pairwise_cons.mp h₁ with ⟨ht, hts⟩
    rcases List.pairwise_cons.mp h₂ with ⟨ht', hts'⟩
    have hmem : t ∈ t' :: ts' := hp.mem_iff.mp (List.mem_cons_self t ts)
    have hmem' : t' ∈ t :: ts := hp.mem_iff.mpr (List.mem_cons_self t' ts')
    have htt' : t = t' := by
      rcases List.mem_cons.mp hmem' with h | h
      · exact h.symm
      · -- t' occurs in ts; then keys are equal, contradicting Nodup
        have h1 : t.key ≤ t'.key := ht t' h
        have h2 : t'.key ≤ t.key := by
          rcases List.mem_cons.mp hmem with h' | h'
          · exact le_of_eq (congrArg SegmentTag.key h'.symm)
          · exact ht' t h'
        have hkey : t'.key = t.key := le_antisymm h2 h1
        have hin : t.key ∈ ts.map SegmentTag.key := by
          exact hkey ▸ List.mem_map_of_mem SegmentTag.key h
        have hcons : (t.key :: List.map SegmentTag.key ts).Nodup := by simpa using hnd
        exact absurd hin (List.nodup_cons.mp hcons).1
    subst htt'
    have htail : List.Perm ts ts' := hp.cons_inv
    have hcons : (t.key :: List.map SegmentTag.key ts).Nodup := by simpa using hnd
    have := sorted_nodup_eq ts ts' htail hts hts' (List.nodup_cons.mp hcons).2
    rw [this]

theorem sortByKey_eq_of_perm {l₁ l₂ : List SegmentTag} (h : List.Perm l₁ l₂)
    (hnd : (l₂.map SegmentTag.key).Nodup) : sortByKey l₁ = sortByKey l₂ := by
  have hperm : List.Perm (sortByKey l₁) (sortByKey l₂) :=
    (sortByKey_perm l₁).trans (h.trans (sortByKey_perm l₂).symm)
  have hnd₁ : ((sortByKey l₁).map SegmentTag.key).Nodup := by
    have hm : List.Perm ((sortByKey l₁).map SegmentTag.key) (l₂.map SegmentTag.key) :=
      List.Perm.map _ ((sortByKey_perm l₁).trans h)
    exact hm.symm.nodup hnd
  exact sorted_nodup_eq _ _ hperm (sortByKey_sorted l₁) (sortByKey_sorted l₂) hnd₁

theorem sortByKey_idem (l : List SegmentTag)
    (hnd : (l.map SegmentTag.key).Nodup) : sortByKey (sortByKey l) = sortByKey l := by
  have h1 : sortByKey (sortByKey l) = sortByKey l :=
    sortByKey_eq_of_perm (sortByKey_perm l) hnd
  exact h1

theorem runCalls_eq (l : List Attempt) :
    runCalls l = (l.take (l.findIdx (fun a => a.fails) + 1),
      if l.any (fun a => a.fails) then some Err.deliveryError else none) := by
  induction l with
  | nil => simp [runCalls]
  | cons a rest ih =>
    simp only [runCalls, List.findIdx_cons, List.any_cons]
    by_cases h : a.fails
    · simp [h]
    · simp [h, ih]

theorem runCalls_ok (l : List Attempt) (h : ∀ a ∈ l, a.fails = false) :
    runCalls l = (l, none) := by
  induction l with
  | nil => simp [runCalls]
  | cons a rest ih =>
    have ha := h a (List.mem_cons_self a rest)
    simp [runCalls, ha, ih (fun b hb => h b (List.mem_cons_of_mem a hb))]

theorem dictAssign_nil {α : Type} (k : String) (v : α) : dictAssign k v [] = [(k, v)] := by
  simp [dictAssign, alistGet]

theorem lastSet_setLastSet (s : LoggerState) (ps : ProfileSet) :
    lastSet (setLastSet s ps) = some ps := by
  simp [lastSet, setLastSet, List.getLast?_concat]

theorem lastSegs_setLastSet (s : LoggerState) (ps : ProfileSet) :
    lastSegs (setLastSet s ps) = ps.segmented_profiles := by
  simp [lastSegs, lastSet_setLastSet]

theorem mem_plannedFrom_fails {s : LoggerState} {sfx : Option String} :
    ∀ (ws : List Writer) (i : Nat) (a : Attempt), a ∈ plannedFrom s sfx i ws →
      ∃ w ∈ ws, a.fails = w.failing := by
  intro ws
  induction ws with
  | nil => intro i a ha; simp [plannedFrom] at ha
  | cons w ws ih =>
    intro i a ha
    rcases List.mem_append.mp ha with ha | ha
    · refine ⟨w, List.mem_cons_self w ws, ?_⟩
      unfold writerPlanned at ha
      rcases List.mem_append.mp ha with h | h
      · by_cases hc : full_profile_check s
        · simp only [hc, if_true, List.mem_singleton] at h
          rw [h]
        · simp [hc] at h
      · by_cases hc : s.segments.isSome
        · simp only [hc, if_true] at h
          rcases List.mem_map.mp h with ⟨kv, _, hkv⟩
          rw [← hkv]
        · simp [hc] at h
    · obtain ⟨w', hw', hf⟩ := ih (i + 1) a ha
      exact ⟨w', List.mem_cons_of_mem w hw', hf⟩

theorem mem_plannedFrom_profile {s : LoggerState} {sfx : Option String} :
    ∀ (ws : List Writer) (i : Nat) (a : Attempt), a ∈ plannedFrom s sfx i ws →
      (full_profile_check s = true ∧ a.profile = (lastSet s).bind ProfileSet.full_profile) ∨
      (s.segments.isSome = true ∧ ∃ kv ∈ lastSegs s, a.profile = some kv.2) := by
  intro ws
  induction ws with
  | nil => intro i a ha; simp [plannedFrom] at ha
  | cons w ws ih =>
    intro i a ha
    rcases List.mem_append.mp ha with ha | ha
    · unfold writerPlanned at ha
      rcases List.mem_append.mp ha with h | h
      · by_cases hc : full_profile_check s
        · simp only [hc, if_true, List.mem_singleton] at h
          exact Or.inl ⟨hc, by rw [h]⟩
        · simp [hc] at h
      · by_cases hc : s.segments.isSome
        · simp only [hc, if_true] at h
          rcases List.mem_map.mp h with ⟨kv, hkv, hkva⟩
          exact Or.inr ⟨hc, kv, hkv, by rw [← hkva]⟩
        · simp [hc] at h
    · exact ih (i + 1) a ha

theorem plannedFrom_full_mem {s : LoggerState} {sfx : Option String}
    (hfc : full_profile_check s = true) :
    ∀ (ws : List Writer) (i j : Nat), j < ws.length →
      ∃ a ∈ plannedFrom s sfx i ws, a.widx = i + j ∧ a.target = WTarget.full := by
  intro ws
  induction ws with
  | nil => intro i j hj; simp at hj
  | cons w ws ih =>
    intro i j hj
    cases j with
    | zero =>
      refine ⟨{ widx := i, target := WTarget.full
                profile := (lastSet s).bind ProfileSet.full_profile
                suffix := sfx, fails := w.failing }, ?_, by simp, rfl⟩
      apply List.mem_append_left
      unfold writerPlanned
      rw [if_pos hfc]
      exact List.mem_append_left _ (List.mem_singleton.mpr rfl)
    | succ j' =>
      obtain ⟨a, ha, hwi, ht⟩ :=
        ih (i + 1) j' (by simp only [List.length_cons] at hj; omega)
      exact ⟨a, List.mem_append_right _ ha, by omega, ht⟩

/-- With no segmentation and the full-profile check on, a complete flush
issues exactly one (full-profile) write call per writer, in order. -/
theorem plannedFrom_no_segs {s : LoggerState} {sfx : Option String}
    (hfc : full_profile_check s = true) (hseg : s.segments = none) :
    ∀ (ws : List Writer) (i : Nat),
      (plannedFrom s sfx i ws).map (fun a => (a.widx, a.target)) =
        (List.range' i ws.length).map (fun j => (j, WTarget.full)) := by
  intro ws
  induction ws with
  | nil => intro i; simp [plannedFrom]
  | cons w ws ih =>
    intro i
    have hsome : s.segments.isSome = false := by simp [hseg]
    simp only [plannedFrom, writerPlanned, hfc, if_true, hsome, Bool.false_eq_true, if_false,
      List.append_nil, List.map_append, List.length_cons, List.range'_succ, List.map_cons,
      List.singleton_append, List.map_cons]
    simp [ih (i + 1)]

theorem whileRotate_add (now i : Nat) (hi : 0 < i) :
    whileRotate (now + i) now i = now + i := by
  have h1 : ¬ i = 0 := by omega
  have h2 : ¬ now + i ≤ now := by omega
  simp [whileRotate, h1, h2]

theorem trimCache_fields (s : LoggerState) :
    (trimCache s).active = s.active ∧ (trimCache s).interval = s.interval ∧
    (trimCache s).segments = s.segments ∧ (trimCache s).init_default_ts = s.init_default_ts := by
  unfold trimCache
  split <;> simp

theorem flush_ok (s : LoggerState) (sfx : Option String) (ha : s.active = true)
    (hw : ∀ w ∈ s.writers, w.failing = false) :
    flush s sfx = (planned s sfx, none) := by
  unfold flush
  rw [if_neg (by simp [ha])]
  apply runCalls_ok
  intro a hmem
  obtain ⟨w, hwmem, hf⟩ := mem_plannedFrom_fails s.writers 0 a hmem
  rw [hf]
  exact hw w hwmem

theorem stampSegs_full (label : Nat) (s : LoggerState) (ps : ProfileSet) :
    (stampSegs label s ps).full_profile = ps.full_profile := by
  unfold stampSegs
  split <;> rfl

theorem stampFull_pos (label : Nat) (s : LoggerState) (ps : ProfileSet)
    (hfc : full_profile_check s = true) :
    (stampFull label s ps).full_profile =
      ps.full_profile.map (fun p => { p with dataset_timestamp := some label }) := by
  unfold stampFull
  rw [if_pos hfc]

theorem interval_trimCache (x : LoggerState) : (trimCache x).interval = x.interval := by
  unfold trimCache
  split <;> rfl

/-- The successful path of `_rotate_time`, as one equation. -/
theorem rotate_time_ok (s : LoggerState) (now : Nat) (ps : ProfileSet)
    (ha : s.active = true)
    (hps : lastSet s = some ps)
    (hguard : (full_profile_check s && ps.full_profile.isNone) = false)
    (hw : ∀ w ∈ s.writers, w.failing = false) :
    rotate_time s now = (rotatedState s ps now, rotatedPlanned s ps, none) := by
  have hfl : flush (setLastSet s (stampSegs (rotationLabel s) s (stampFull (rotationLabel s) s ps)))
      (some (suffixString (rotationLabel s))) =
      (planned (setLastSet s (stampSegs (rotationLabel s) s (stampFull (rotationLabel s) s ps)))
        (some (suffixString (rotationLabel s))), none) := by
    apply flush_ok
    · simpa [setLastSet] using ha
    · simpa [setLastSet] using hw
  simp only [rotate_time, hps, hguard, Bool.false_eq_true, if_false, hfl,
    rotatedState, rotatedPlanned]

/-- C1 (corrected): at a concrete state with two registered sinks, the
first of which raises, the claim "the Sink write call is attempted for
every registered Sink even if an earlier write raises" is false in
`flush` — the second sink receives no call at all. -/
theorem C1_counterexample :
    ¬ (∀ i, i < c1State.writers.length →
        ∃ a ∈ (flush c1State (some ".0")).1, a.widx = i) := by decide

/-- C1 (amended): during one rotation's flush the write calls are issued
in program order only up to and including the first failing call; that
failure propagates immediately as the flush's exception — aborting the
remaining sink/accumulator writes of the rotation — and failures are not
collected. -/
theorem C1_flush_aborts_on_first_failure (s : LoggerState) (sfx : Option String)
    (ha : s.active = true) :
    (flush s sfx).1 =
      (planned s sfx).take ((planned s sfx).findIdx (fun a => a.fails) + 1) ∧
    ((flush s sfx).2 = some Err.deliveryError ↔ ∃ a ∈ planned s sfx, a.fails = true) := by
  have h1 : flush s sfx = runCalls (planned s sfx) := by
    unfold flush
    rw [if_neg (by simp [ha])]
  rw [h1, runCalls_eq]
  refine ⟨rfl, ?_⟩
  by_cases hany : (planned s sfx).any (fun a => a.fails) = true
  · simp only [hany, if_true, true_iff]
    exact List.any_eq_true.mp hany
  · rw [if_neg hany]
    constructor
    · intro h
      exact absurd h (by simp)
    · intro hex
      exact absurd (List.any_eq_true.mpr hex) hany

theorem C1_witness :
    (flush c1State (some ".0")).1 =
      (planned c1State (some ".0")).take
        ((planned c1State (some ".0")).findIdx (fun a => a.fails) + 1) ∧
    ((flush c1State (some ".0")).2 = some Err.deliveryError ↔
      ∃ a ∈ planned c1State (some ".0"), a.fails = true) :=
  C1_flush_aborts_on_first_failure c1State (some ".0") rfl

/-- C2 (code bug): with `ByKeys(["region"])` and one existing segment
accumulator, the public `log` call for the non-key feature "other" raises
`AttributeError` — the source iterates the segmented-profiles dict
directly, obtaining its key strings, and calls `track_datum` on them —
and leaves the state unchanged, whereas the claim (and the spec's
broadcast semantics) require every existing segment accumulator to
receive the update. -/
theorem C2_broadcast_attribute_error :
    (log (fun x => x) c2State 0 none (some "other") (Val.int 5)).2.2 =
      some Err.attributeError ∧
    (log (fun x => x) c2State 0 none (some "other") (Val.int 5)).1 = c2State := by decide

/-- C3 (corrected): at a state whose rotation is due, `log` with both a
feature map and a single name/value pair raises the ValueError only after
the rotate-if-due preamble has run: a sink write was issued and
`rotate_at` advanced before the rejection, contradicting "no rotation, no
flush ... happens before the rejection". -/
theorem C3_counterexample :
    (log (fun x => x) c3State 10 (some [("x", Val.int 1)]) (some "x") (Val.int 1)).2.2 =
      some Err.valueErrorBoth ∧
    (log (fun x => x) c3State 10 (some [("x", Val.int 1)]) (some "x") (Val.int 1)).2.1 ≠ [] ∧
    (log (fun x => x) c3State 10 (some [("x", Val.int 1)]) (some "x") (Val.int 1)).1.rotate_at ≠
      c3State.rotate_at := by decide

/-- C3 (amended): supplying both input shapes to `log` raises ValueError
and performs no accumulator update, but the shared rotate-if-due preamble
executes first, so a due rotation (with its flush hand-off and profile
swap) happens before the rejection; the call's result is exactly the
preamble's state and events plus the error. -/
theorem C3_rejects_after_rotation (sha : String → String) (s : LoggerState) (now : Nat)
    (f : List (String × Val)) (fn : String) (v : Val) (ha : s.active = true)
    (hok : (if should_rotate s now then rotate_time s now else (s, [], none)).2.2 = none) :
    log sha s now (some f) (some fn) v =
      ((if should_rotate s now then rotate_time s now else (s, [], none)).1,
       (if should_rotate s now then rotate_time s now else (s, [], none)).2.1,
       some Err.valueErrorBoth) := by
  unfold log
  rw [if_neg (by simp [ha])]
  rcases hr : (if should_rotate s now then rotate_time s now else (s, [], none)) with ⟨s1, ev, e⟩
  rw [hr] at hok
  simp only at hok
  subst hok
  simp

theorem C3_witness :
    log (fun x => x) baseState 0 (some [("x", Val.int 1)]) (some "x") (Val.int 1) =
      ((if should_rotate baseState 0 then rotate_time baseState 0 else (baseState, [], none)).1,
       (if should_rotate baseState 0 then rotate_time baseState 0 else (baseState, [], none)).2.1,
       some Err.valueErrorBoth) :=
  C3_rejects_after_rotation (fun x => x) baseState 0 [("x", Val.int 1)] "x" (Val.int 1)
    rfl (by decide)

/-- C4 (corrected): with minute-granularity rotation (`interval = 60`,
`rotate_at = 90`, so the closing window started at epoch second 30), the
single flushed profile is labeled with timestamp 0 — the window start
truncated by the `strftime`/`strptime` round trip — not with
`rotate_at - interval = 30` as the claim states. -/
theorem C4_counterexample :
    ((rotate_time c4State 90).2.1.map
        (fun a => a.profile.map DatasetProfile.dataset_timestamp) = [some (some 0)]) ∧
    c4State.rotate_at - c4State.interval = 30 ∧
    ((rotate_time c4State 90).2.1.map
        (fun a => a.profile.map DatasetProfile.dataset_timestamp) ≠
      [some (some (c4State.rotate_at - c4State.interval))]) := by decide

/-- C4 (amended): one `_rotate_time` call labels every flushed profile
with `trunc suffix_gran (rotateAt_old - intervalSeconds)` — the
pre-rotation window start truncated to the rotation suffix granularity,
exact whenever the granularity is one second — and establishes
`rotate_at = now + interval`, strictly greater than `now`, in that single
call even when `now` is many intervals past the old `rotate_at`. -/
theorem C4_rotation_catchup (s : LoggerState) (now : Nat) (ps : ProfileSet)
    (ha : s.active = true) (hi : 0 < s.interval)
    (hw : ∀ w ∈ s.writers, w.failing = false)
    (hps : lastSet s = some ps)
    (hfull : full_profile_check s = true → ps.full_profile.isSome = true) :
    (rotate_time s now).2.2 = none ∧
    (rotate_time s now).1.rotate_at = now + s.interval ∧
    now < (rotate_time s now).1.rotate_at ∧
    (∀ a ∈ (rotate_time s now).2.1, ∃ p, a.profile = some p ∧
        p.dataset_timestamp = some (trunc s.suffix_gran (s.rotate_at - s.interval))) ∧
    (s.suffix_gran = 1 →
      trunc s.suffix_gran (s.rotate_at - s.interval) = s.rotate_at - s.interval) := by
  have hguard : (full_profile_check s && ps.full_profile.isNone) = false := by
    by_cases hfc : full_profile_check s
    · rcases hp : ps.full_profile with _ | p
      · rw [hp] at hfull
        simp [hfc] at hfull
      · simp [hp]
    · simp [hfc]
  rw [rotate_time_ok s now ps ha hps hguard hw]
  have hlabel : rotationLabel s = trunc s.suffix_gran (s.rotate_at - s.interval) := rfl
  have hintv : (rotatedState s ps now).rotate_at = now + s.interval := by
    have h3 : (intialize_profiles (trimCache (setLastSet s
        (stampSegs (rotationLabel s) s (stampFull (rotationLabel s) s ps))))
        (some (trimCache (setLastSet s
          (stampSegs (rotationLabel s) s (stampFull (rotationLabel s) s ps)))).init_default_ts)).interval
        = s.interval := by
      show (trimCache (setLastSet s
        (stampSegs (rotationLabel s) s (stampFull (rotationLabel s) s ps)))).interval = s.interval
      rw [interval_trimCache]
      rfl
    show whileRotate (rotate_when _ now) now _ = now + s.interval
    rw [rotate_when, h3]
    exact whileRotate_add now s.interval hi
  refine ⟨rfl, hintv, by rw [hintv]; omega, ?_, ?_⟩
  · intro a hmem
    simp only [rotatedPlanned] at hmem
    have hcases := @mem_plannedFrom_profile
      (setLastSet s (stampSegs (rotationLabel s) s (stampFull (rotationLabel s) s ps)))
      (some (suffixString (rotationLabel s)))
      ((setLastSet s (stampSegs (rotationLabel s) s (stampFull (rotationLabel s) s ps))).writers)
      0 a hmem
    rcases hcases with ⟨hfc1, hprof⟩ | ⟨hsome, kv, hkv, hprof⟩
    · -- full-profile write
      have hfc : full_profile_check s = true := hfc1
      have hfp : ps.full_profile.isSome = true := hfull hfc
      rcases hp : ps.full_profile with _ | p
      · rw [hp] at hfp; simp at hfp
      · refine ⟨{ p with dataset_timestamp := some (rotationLabel s) }, ?_, by rw [hlabel]⟩
        rw [hprof, lastSet_setLastSet]
        rw [show ∀ (x : ProfileSet), (some x).bind ProfileSet.full_profile = x.full_profile
          from fun _ => rfl]
        rw [stampSegs_full, stampFull_pos _ _ _ hfc, hp]
        rfl
    · -- segment write
      rw [lastSegs_setLastSet] at hkv
      have hsome' : s.segments.isSome = true := hsome
      simp only [stampSegs, hsome', if_true, List.mem_map] at hkv
      obtain ⟨kv0, _, hkv0⟩ := hkv
      refine ⟨kv.2, hprof, ?_⟩
      rw [← hkv0, ← hlabel]
  · intro hg
    simp [trunc, hg]

/-- A stalled scheduler: `interval = 10`, `rotate_at = 20`, `now = 75`. -/
theorem C4_witness :
    (rotate_time c4WitnessState 75).2.2 = none ∧
    (rotate_time c4WitnessState 75).1.rotate_at = 75 + c4WitnessState.interval ∧
    75 < (rotate_time c4WitnessState 75).1.rotate_at ∧
    (∀ a ∈ (rotate_time c4WitnessState 75).2.1, ∃ p, a.profile = some p ∧
        p.dataset_timestamp =
          some (trunc c4WitnessState.suffix_gran
            (c4WitnessState.rotate_at - c4WitnessState.interval))) ∧
    (c4WitnessState.suffix_gran = 1 →
      trunc c4WitnessState.suffix_gran (c4WitnessState.rotate_at - c4WitnessState.interval) =
        c4WitnessState.rotate_at - c4WitnessState.interval) :=
  C4_rotation_catchup c4WitnessState 75 { full_profile := some exProfile, segmented_profiles := [] }
    rfl (by decide) (by decide) (by decide) (fun _ => rfl)

/-- C5 (confirmed): for a segment with pairwise-distinct feature names,
every permutation of its pairs receives the same stored fingerprint as
the segment in canonical (sorted-by-featureName) order, because
`log_df_segment` key-sorts before calling `hash_segment`, and this holds
for any digest function in place of SHA-256. -/
theorem C5_fingerprint_perm_invariant (sha : String → String) (seg perm : Segment)
    (hperm : List.Perm perm seg) (hnd : (seg.map SegmentTag.key).Nodup) :
    log_df_fingerprint sha perm = log_df_fingerprint sha (sortByKey seg) := by
  unfold log_df_fingerprint hash_segment
  rw [sortByKey_eq_of_perm hperm hnd, sortByKey_idem seg hnd]

theorem C5_witness :
    List.Perm ([⟨"b", Val.int 2⟩, ⟨"a", Val.int 1⟩] : Segment)
      [⟨"a", Val.int 1⟩, ⟨"b", Val.int 2⟩] ∧
    log_df_fingerprint (fun x => x) [⟨"b", Val.int 2⟩, ⟨"a", Val.int 1⟩] =
      log_df_fingerprint (fun x => x) (sortByKey [⟨"a", Val.int 1⟩, ⟨"b", Val.int 2⟩]) :=
  ⟨List.Perm.swap _ _ _,
   C5_fingerprint_perm_invariant (fun x => x) _ _ (List.Perm.swap _ _ _) (by decide)⟩

/-- C9 (confirmed): batch routing (`log_df_segment`) stores the new
accumulator under the hash of the key-sorted segment, while `get_segment`
hashes the list exactly as supplied; hence, whenever the two
serializations hash differently (as they do for SHA-256 barring a
collision), looking the segment up in its original unsorted order returns
None even though the accumulator for the key-sorted segment exists. -/
theorem C9_get_segment_unsorted_miss (sha : String → String) (s : LoggerState)
    (ps : ProfileSet) (now : Nat) (df : DataFrame) (seg : Segment)
    (hps : lastSet s = some ps) (hempty : ps.segmented_profiles = [])
    (hcoll : sha (jsonDumps seg) ≠ sha (jsonDumps (sortByKey seg))) :
    get_segment sha (log_df_segment sha s now df seg) seg = none ∧
    (get_segment sha (log_df_segment sha s now df seg) (sortByKey seg)).isSome = true := by
  have hget : get_segment sha s (sortByKey seg) = none := by
    unfold get_segment lastSegs
    rw [hps]
    simp [hempty, alistGet]
  unfold log_df_segment
  simp only [hps, hget, hempty, dictAssign_nil]
  constructor
  · unfold get_segment
    rw [lastSegs_setLastSet]
    simp [alistGet, hash_segment, hcoll]
  · unfold get_segment
    rw [lastSegs_setLastSet]
    simp [alistGet]

theorem cfgEq_refl (a : LoggerState) : cfgEq a a := by
  simp [cfgEq]

theorem cfgEq_trans {a b c : LoggerState} (h1 : cfgEq a b) (h2 : cfgEq b c) : cfgEq a c := by
  unfold cfgEq at h1 h2 ⊢
  obtain ⟨e1, e2, e3, e4, e5, e6, e7, e8, e9, e10⟩ := h1
  obtain ⟨f1, f2, f3, f4, f5, f6, f7, f8, f9, f10⟩ := h2
  exact ⟨e1.trans f1, e2.trans f2, e3.trans f3, e4.trans f4, e5.trans f5,
    e6.trans f6, e7.trans f7, e8.trans f8, e9.trans f9, e10.trans f10⟩

theorem sameCfg_refl (a : LoggerState) : sameCfg a a :=
  ⟨cfgEq_refl a, rfl, rfl, rfl, rfl⟩

theorem sameCfg_trans {a b c : LoggerState} (h1 : sameCfg a b) (h2 : sameCfg b c) :
    sameCfg a c :=
  ⟨cfgEq_trans h1.1 h2.1, h1.2.1.trans h2.2.1, h1.2.2.1.trans h2.2.2.1,
   h1.2.2.2.1.trans h2.2.2.2.1, h1.2.2.2.2.trans h2.2.2.2.2⟩

theorem setLastSet_sameCfg (s : LoggerState) (ps : ProfileSet) :
    sameCfg (setLastSet s ps) s := by
  refine ⟨?_, rfl, rfl, rfl, rfl⟩
  simp [cfgEq, setLastSet]

theorem log_df_segment_sameCfg (sha : String → String) (s : LoggerState) (now : Nat)
    (df : DataFrame) (seg : Segment) : sameCfg (log_df_segment sha s now df seg) s := by
  unfold log_df_segment
  split
  · exact sameCfg_refl s
  · dsimp only
    split
    · exact setLastSet_sameCfg s _
    · exact setLastSet_sameCfg s _

theorem foldl_pred {α : Type} (f : LoggerState → α → LoggerState) (P : LoggerState → Prop)
    (hf : ∀ st x, P st → P (f st x)) :
    ∀ (l : List α) (s : LoggerState), P s → P (l.foldl f s) := by
  intro l
  induction l with
  | nil => intro s hs; exact hs
  | cons x xs ih =>
    intro s hs
    simp only [List.foldl_cons]
    exact ih (f s x) (hf s x hs)

theorem foldl_sameCfg {α : Type} (f : LoggerState → α → LoggerState)
    (hf : ∀ st x, sameCfg (f st x) st) :
    ∀ (l : List α) (s : LoggerState), sameCfg (l.foldl f s) s := by
  intro l
  induction l with
  | nil => intro s; exact sameCfg_refl s
  | cons x xs ih =>
    intro s
    simp only [List.foldl_cons]
    exact sameCfg_trans (ih (f s x)) (hf s x)

theorem foldl_pair_sameCfg {α : Type}
    (f : LoggerState × Option Err → α → LoggerState × Option Err)
    (hf : ∀ p x, sameCfg (f p x).1 p.1) :
    ∀ (l : List α) (p : LoggerState × Option Err), sameCfg (l.foldl f p).1 p.1 := by
  intro l
  induction l with
  | nil => intro p; exact sameCfg_refl p.1
  | cons x xs ih =>
    intro p
    simp only [List.foldl_cons]
    exact sameCfg_trans (ih (f p x)) (hf p x)

theorem log_segments_keys_sameCfg (sha : String → String) (s : LoggerState) (now : Nat)
    (df : DataFrame) : sameCfg (log_segments_keys sha s now df).1 s := by
  unfold log_segments_keys
  dsimp only
  split
  · exact sameCfg_refl s
  · exact foldl_sameCfg _ (fun st tup => log_df_segment_sameCfg sha st now _ _) _ s

theorem log_fixed_segments_sameCfg (sha : String → String) (s : LoggerState) (now : Nat)
    (df : DataFrame) : sameCfg (log_fixed_segments sha s now df).1 s := by
  unfold log_fixed_segments
  apply foldl_pair_sameCfg
  intro p tag
  rcases p with ⟨st, e⟩
  rcases e with _ | e
  · dsimp only
    repeat' split
    all_goals first
      | exact sameCfg_refl st
      | exact log_df_segment_sameCfg sha st now _ _
  · exact sameCfg_refl st

theorem log_segments_sameCfg (sha : String → String) (s : LoggerState) (now : Nat)
    (df : DataFrame) : sameCfg (log_segments sha s now df).1 s := by
  unfold log_segments
  split
  · exact log_segments_keys_sameCfg sha s now df
  · exact log_fixed_segments_sameCfg sha s now df
  · exact sameCfg_refl s

theorem log_segment_datum_sameCfg (sha : String → String) (s : LoggerState)
    (fn : String) (v : Val) : sameCfg (log_segment_datum sha s fn v).1 s := by
  unfold log_segment_datum
  dsimp only
  repeat' split
  all_goals first
    | exact sameCfg_refl s
    | exact setLastSet_sameCfg s _

theorem trackFullDF_sameCfg (s : LoggerState) (df : DataFrame) :
    sameCfg (trackFullDF s df).1 s := by
  unfold trackFullDF
  repeat' split
  all_goals first
    | exact sameCfg_refl s
    | exact setLastSet_sameCfg s _

theorem trackFullDatum_sameCfg (s : LoggerState) (fn : String) (v : Val) :
    sameCfg (trackFullDatum s fn v).1 s := by
  unfold trackFullDatum
  repeat' split
  all_goals first
    | exact sameCfg_refl s
    | exact setLastSet_sameCfg s _

theorem logSingleCore_sameCfg (sha : String → String) (s : LoggerState) (fn : String)
    (v : Val) : sameCfg (logSingleCore sha s fn v).1 s := by
  unfold logSingleCore
  split
  · rename_i s2 e heq
    have h := trackFullDatum_sameCfg s fn v
    rw [heq] at h
    exact h
  · rename_i s2 heq
    have h := trackFullDatum_sameCfg s fn v
    rw [heq] at h
    split
    · exact sameCfg_trans (log_segment_datum_sameCfg sha s2 fn v) h
    · exact h

theorem set_segments_cfg (x : LoggerState) (a : Option (List SegElem)) :
    cfgEq (set_segments x a) x ∧
    (set_segments x a).profile_full_dataset = x.profile_full_dataset ∧
    (set_segments x a).active = x.active ∧
    (set_segments x a).profiles = x.profiles := by
  unfold set_segments
  split
  · split_ifs <;> exact ⟨by simp [cfgEq], rfl, rfl, rfl⟩
  · exact ⟨by simp [cfgEq], rfl, rfl, rfl⟩

theorem ldfPrefix_facts (s1 : LoggerState) (segs : Option (List SegElem)) (pfd : Bool) :
    (ldfPrefix s1 segs pfd).profile_full_dataset = pfd ∧
    cfgEq (ldfPrefix s1 segs pfd) s1 ∧
    (ldfPrefix s1 segs pfd).active = s1.active ∧
    (ldfPrefix s1 segs pfd).profiles = s1.profiles ∧
    (segs = none → (ldfPrefix s1 segs pfd).segments = s1.segments ∧
      (ldfPrefix s1 segs pfd).segment_type = s1.segment_type) := by
  unfold ldfPrefix
  dsimp only
  by_cases h : segs.isSome
  · rw [if_pos h]
    obtain ⟨hc, hp, hact, hpr⟩ := set_segments_cfg { s1 with profile_full_dataset := pfd } segs
    refine ⟨hp, cfgEq_trans hc (by simp [cfgEq]), hact, hpr, ?_⟩
    intro habs
    rw [habs] at h
    simp at h
  · rw [if_neg h]
    exact ⟨rfl, by simp [cfgEq], rfl, rfl, fun _ => ⟨rfl, rfl⟩⟩

theorem ldfCore_sameCfg (sha : String → String) (s1 : LoggerState) (now : Nat)
    (df : DataFrame) (segs : Option (List SegElem)) (pfd : Bool) :
    sameCfg (ldfCore sha s1 now df segs pfd).1 (ldfPrefix s1 segs pfd) := by
  unfold ldfCore
  split
  · rename_i s4 e heq
    have h := trackFullDF_sameCfg (ldfPrefix s1 segs pfd) df
    rw [heq] at h
    exact h
  · rename_i s4 heq
    have h := trackFullDF_sameCfg (ldfPrefix s1 segs pfd) df
    rw [heq] at h
    split
    · exact sameCfg_trans (log_segments_sameCfg sha s4 now df) h
    · exact h

theorem log_dataframe_no_rot (sha : String → String) (s : LoggerState) (now : Nat)
    (df : DataFrame) (segs : Option (List SegElem)) (pfd : Bool)
    (ha : s.active = true) (hnr : should_rotate s now = false) :
    log_dataframe sha s now df segs pfd =
      ((ldfCore sha s now df segs pfd).1, [], (ldfCore sha s now df segs pfd).2) := by
  unfold log_dataframe
  rw [if_neg (by simp [ha])]
  simp [hnr]

/-- C8 (confirmed): a `log_dataframe` call (here, with no rotation due)
overwrites `profile_full_dataset` with its argument, leaves every other
configuration field unchanged (`segments`/`segment_type` excepted when the
`segments` argument is supplied), and consequently `log` with a feature
map — which delegates to `log_dataframe` with its defaults — always resets
`profile_full_dataset` to `False`, losing a construction-time `True`. -/
theorem C8_log_dataframe_overwrites_pfd (sha : String → String) (s : LoggerState)
    (now : Nat) (df : DataFrame) (segs : Option (List SegElem)) (pfd : Bool)
    (ha : s.active = true) (hnr : should_rotate s now = false) :
    (log_dataframe sha s now df segs pfd).1.profile_full_dataset = pfd ∧
    cfgEq (log_dataframe sha s now df segs pfd).1 s ∧
    (segs = none → (log_dataframe sha s now df segs pfd).1.segments = s.segments ∧
      (log_dataframe sha s now df segs pfd).1.segment_type = s.segment_type) ∧
    (∀ fs v, (log sha s now (some fs) none v).1.profile_full_dataset = false) := by
  have hldf := log_dataframe_no_rot sha s now df segs pfd ha hnr
  have hcore := ldfCore_sameCfg sha s now df segs pfd
  have hpre := ldfPrefix_facts s segs pfd
  have hmain : ∀ (df' : DataFrame) (segs' : Option (List SegElem)) (pfd' : Bool),
      (log_dataframe sha s now df' segs' pfd').1.profile_full_dataset = pfd' := by
    intro df' segs' pfd'
    rw [log_dataframe_no_rot sha s now df' segs' pfd' ha hnr]
    have hc := ldfCore_sameCfg sha s now df' segs' pfd'
    have hp := (ldfPrefix_facts s segs' pfd').1
    exact hc.2.2.2.1.trans hp
  refine ⟨hmain df segs pfd, ?_, ?_, ?_⟩
  · rw [hldf]
    exact cfgEq_trans hcore.1 hpre.2.1
  · intro hnone
    rw [hldf]
    exact ⟨hcore.2.1.trans ((hpre.2.2.2.2 hnone).1),
      hcore.2.2.1.trans ((hpre.2.2.2.2 hnone).2)⟩
  · intro fs v
    have hlog : log sha s now (some fs) none v =
        ((log_dataframe sha s now (dfOfFeatures fs) none false).1,
         [] ++ (log_dataframe sha s now (dfOfFeatures fs) none false).2.1,
         (log_dataframe sha s now (dfOfFeatures fs) none false).2.2) := by
      unfold log
      rw [if_neg (by simp [ha])]
      simp [hnr]
    rw [hlog]
    exact hmain (dfOfFeatures fs) none false

theorem C8_witness :
    (log_dataframe (fun x => x) c8State 0 { cols := [], rows := [] } none false).1.profile_full_dataset
        = false ∧
    cfgEq (log_dataframe (fun x => x) c8State 0 { cols := [], rows := [] } none false).1 c8State ∧
    (none = (none : Option (List SegElem)) →
      (log_dataframe (fun x => x) c8State 0 { cols := [], rows := [] } none false).1.segments
          = c8State.segments ∧
      (log_dataframe (fun x => x) c8State 0 { cols := [], rows := [] } none false).1.segment_type
          = c8State.segment_type) ∧
    (∀ fs v, (log (fun x => x) c8State 0 (some fs) none v).1.profile_full_dataset = false) :=
  C8_log_dataframe_overwrites_pfd (fun x => x) c8State 0 { cols := [], rows := [] } none false
    rfl rfl

theorem segInv_elim {s : LoggerState} {l : List SegElem} (h : segInv s)
    (hl : s.segments = some l) :
    l ≠ [] ∧ (s.segment_type = some "keys" ∨ s.segment_type = some "set") := by
  unfold segInv at h
  rw [hl] at h
  exact h

theorem segInv_of_eq {a b : LoggerState} (h1 : a.segments = b.segments)
    (h2 : a.segment_type = b.segment_type) (hb : segInv b) : segInv a := by
  unfold segInv at hb ⊢
  rw [h1, h2]
  exact hb

theorem segInv_of_sameCfg {a b : LoggerState} (h : sameCfg a b) (hb : segInv b) : segInv a :=
  segInv_of_eq h.2.1 h.2.2.1 hb

theorem set_segments_segInv (s : LoggerState) (a : Option (List SegElem)) :
    segInv (set_segments s a) := by
  rcases a with _ | l
  · simp [set_segments, segInv]
  · by_cases h1 : l.isEmpty
    · simp [set_segments, h1, segInv]
    · by_cases h2 : l.all elemIsStr
      · simp only [set_segments, h1, Bool.false_eq_true, if_false, h2, if_true]
        unfold segInv
        dsimp only
        refine ⟨?_, Or.inl rfl⟩
        intro habs
        rw [habs] at h1
        simp at h1
      · simp only [set_segments, h1, Bool.false_eq_true, if_false, h2, if_false]
        unfold segInv
        dsimp only
        refine ⟨?_, Or.inr rfl⟩
        intro habs
        rw [habs] at h1
        simp at h1

theorem trimCache_sameCfg (x : LoggerState) : sameCfg (trimCache x) x := by
  unfold trimCache
  split
  · exact ⟨by simp [cfgEq], rfl, rfl, rfl, rfl⟩
  · exact sameCfg_refl x

theorem intialize_sameCfg (x : LoggerState) (d : Option Nat) :
    sameCfg (intialize_profiles x d) x :=
  ⟨by simp [cfgEq, intialize_profiles], rfl, rfl, rfl, rfl⟩

theorem rotateAt_sameCfg (x : LoggerState) (r : Nat) :
    sameCfg { x with rotate_at := r } x :=
  ⟨by simp [cfgEq], rfl, rfl, rfl, rfl⟩

theorem rotate_time_sameCfg (s : LoggerState) (now : Nat) :
    sameCfg (rotate_time s now).1 s := by
  unfold rotate_time
  split
  · exact sameCfg_refl s
  · split
    · exact sameCfg_refl s
    · dsimp only
      split
      · exact setLastSet_sameCfg s _
      · exact sameCfg_trans (rotateAt_sameCfg _ _)
          (sameCfg_trans (intialize_sameCfg _ _)
            (sameCfg_trans (trimCache_sameCfg _) (setLastSet_sameCfg s _)))

theorem flush_err (s : LoggerState) (sfx : Option String) :
    (flush s sfx).2 = none ∨ (flush s sfx).2 = some Err.deliveryError := by
  unfold flush
  split
  · exact Or.inl rfl
  · rw [runCalls_eq]
    dsimp only
    split
    · exact Or.inr rfl
    · exact Or.inl rfl

theorem rotate_time_err (s : LoggerState) (now : Nat) :
    (rotate_time s now).2.2 = none ∨ (rotate_time s now).2.2 = some Err.attributeError ∨
    (rotate_time s now).2.2 = some Err.deliveryError := by
  unfold rotate_time
  split
  · exact Or.inr (Or.inl rfl)
  · split
    · exact Or.inr (Or.inl rfl)
    · dsimp only
      split
      · rename_i e heq
        rcases flush_err (setLastSet s _) (some (suffixString (rotationLabel s))) with h | h <;>
          rw [heq] at h
        · simp at h
        · injection h with h'
          rw [h']
          exact Or.inr (Or.inr rfl)
      · exact Or.inl rfl

theorem trackFullDF_err (s : LoggerState) (df : DataFrame) :
    (trackFullDF s df).2 = none ∨ (trackFullDF s df).2 = some Err.attributeError := by
  unfold trackFullDF
  repeat' split
  all_goals simp

theorem trackFullDatum_err (s : LoggerState) (fn : String) (v : Val) :
    (trackFullDatum s fn v).2 = none ∨ (trackFullDatum s fn v).2 = some Err.attributeError := by
  unfold trackFullDatum
  repeat' split
  all_goals simp

theorem log_segment_datum_err (sha : String → String) (s : LoggerState) (fn : String)
    (v : Val) :
    (log_segment_datum sha s fn v).2 = none ∨
    (log_segment_datum sha s fn v).2 = some Err.attributeError := by
  unfold log_segment_datum
  dsimp only
  repeat' split
  all_goals simp

theorem log_segments_keys_err (sha : String → String) (s : LoggerState) (now : Nat)
    (df : DataFrame) :
    (log_segments_keys sha s now df).2 = none ∨
    (log_segments_keys sha s now df).2 = some Err.keyError := by
  unfold log_segments_keys
  dsimp only
  split
  · exact Or.inr rfl
  · exact Or.inl rfl

theorem foldl_pair_err {α : Type}
    (f : LoggerState × Option Err → α → LoggerState × Option Err)
    (hf : ∀ p x, ((f p x).2 = none ∨ (f p x).2 = some Err.keyError) ∨ (f p x).2 = p.2) :
    ∀ (l : List α) (p : LoggerState × Option Err),
      (p.2 = none ∨ p.2 = some Err.keyError) →
      ((l.foldl f p).2 = none ∨ (l.foldl f p).2 = some Err.keyError) := by
  intro l
  induction l with
  | nil => intro p hp; exact hp
  | cons x xs ih =>
    intro p hp
    simp only [List.foldl_cons]
    refine ih (f p x) ?_
    rcases hf p x with h | h
    · exact h
    · rw [h]; exact hp

theorem log_fixed_segments_err (sha : String → String) (s : LoggerState) (now : Nat)
    (df : DataFrame) :
    (log_fixed_segments sha s now df).2 = none ∨
    (log_fixed_segments sha s now df).2 = some Err.keyError := by
  unfold log_fixed_segments
  apply foldl_pair_err
  · intro p tag
    rcases p with ⟨st, e⟩
    rcases e with _ | e
    · dsimp only
      repeat' split
      all_goals simp
    · exact Or.inr rfl
  · exact Or.inl rfl

theorem log_segments_err (sha : String → String) (s : LoggerState) (now : Nat)
    (df : DataFrame) (h : segInv s) (ht : segTruthy s.segments = true) :
    (log_segments sha s now df).2 ≠ some Err.typeErrorSegments := by
  rcases hs : s.segments with _ | l
  · rw [hs] at ht
    simp [segTruthy] at ht
  · rcases l with _ | ⟨x, xs⟩
    · rw [hs] at ht
      simp [segTruthy] at ht
    · obtain ⟨-, htyp⟩ := segInv_elim h hs
      unfold log_segments
      rcases htyp with htyp | htyp <;> rw [htyp]
      · show (log_segments_keys sha s now df).2 ≠ some Err.typeErrorSegments
        rcases log_segments_keys_err sha s now df with h' | h' <;> simp [h']
      · show (log_fixed_segments sha s now df).2 ≠ some Err.typeErrorSegments
        rcases log_fixed_segments_err sha s now df with h' | h' <;> simp [h']

theorem ldfPrefix_segInv (s1 : LoggerState) (segs : Option (List SegElem)) (pfd : Bool)
    (h : segInv s1) : segInv (ldfPrefix s1 segs pfd) := by
  unfold ldfPrefix
  dsimp only
  split
  · exact set_segments_segInv _ _
  · exact segInv_of_eq rfl rfl h

theorem ldfCore_err (sha : String → String) (s1 : LoggerState) (now : Nat) (df : DataFrame)
    (segs : Option (List SegElem)) (pfd : Bool) (h : segInv s1) :
    (ldfCore sha s1 now df segs pfd).2 ≠ some Err.typeErrorSegments := by
  have hpre : segInv (ldfPrefix s1 segs pfd) := ldfPrefix_segInv s1 segs pfd h
  unfold ldfCore
  split
  · rename_i s4 e heq
    rcases trackFullDF_err (ldfPrefix s1 segs pfd) df with h' | h' <;> rw [heq] at h'
    · simp at h'
    · injection h' with h''
      rw [h'']
      simp
  · rename_i s4 heq
    have hsame : sameCfg s4 (ldfPrefix s1 segs pfd) := by
      have hh := trackFullDF_sameCfg (ldfPrefix s1 segs pfd) df
      rw [heq] at hh
      exact hh
    have hs4 : segInv s4 := segInv_of_sameCfg hsame hpre
    split
    · rename_i ht
      exact log_segments_err sha s4 now df hs4 ht
    · simp

theorem preamble_cases (s : LoggerState) (now : Nat) :
    (if should_rotate s now then rotate_time s now else (s, [], none)) = (s, [], none) ∨
    (if should_rotate s now then rotate_time s now else (s, [], none)) = rotate_time s now := by
  by_cases hr : should_rotate s now = true
  · exact Or.inr (if_pos hr)
  · exact Or.inl (if_neg hr)

theorem ldfCore_segInv (sha : String → String) (s1 : LoggerState) (now : Nat)
    (df : DataFrame) (segs : Option (List SegElem)) (pfd : Bool) (h : segInv s1) :
    segInv (ldfCore sha s1 now df segs pfd).1 :=
  segInv_of_sameCfg (ldfCore_sameCfg sha s1 now df segs pfd) (ldfPrefix_segInv s1 segs pfd h)

theorem log_dataframe_no_type_err (sha : String → String) (s : LoggerState) (now : Nat)
    (df : DataFrame) (segs : Option (List SegElem)) (pfd : Bool) (h : segInv s) :
    (log_dataframe sha s now df segs pfd).2.2 ≠ some Err.typeErrorSegments := by
  unfold log_dataframe
  split
  · simp
  · dsimp only
    rcases preamble_cases s now with heq | heq <;> rw [heq]
    · dsimp only
      exact ldfCore_err sha s now df segs pfd h
    · split
      · rename_i s1 ev e heq2
        rcases rotate_time_err s now with h' | h' | h' <;> rw [heq2] at h' <;> simp at h' <;>
          simp [h']
      · rename_i s1 ev heq2
        have hs1 : segInv s1 := by
          refine segInv_of_sameCfg ?_ h
          have hh := rotate_time_sameCfg s now
          rw [heq2] at hh
          exact hh
        dsimp only
        exact ldfCore_err sha s1 now df segs pfd hs1

theorem logSingleCore_err (sha : String → String) (s : LoggerState) (fn : String) (v : Val) :
    (logSingleCore sha s fn v).2 = none ∨
    (logSingleCore sha s fn v).2 = some Err.attributeError := by
  unfold logSingleCore
  split
  · rename_i s2 e heq
    rcases trackFullDatum_err s fn v with h' | h' <;> rw [heq] at h'
    · simp at h'
    · injection h' with h''
      rw [h'']
      simp
  · rename_i s2 heq
    split
    · exact log_segment_datum_err sha s2 fn v
    · exact Or.inl rfl

theorem log_no_type_err (sha : String → String) (s : LoggerState) (now : Nat)
    (fs : Option (List (String × Val))) (fn : Option String) (v : Val) (h : segInv s) :
    (log sha s now fs fn v).2.2 ≠ some Err.typeErrorSegments := by
  unfold log
  split
  · simp
  · dsimp only
    rcases preamble_cases s now with heq | heq <;> rw [heq]
    · dsimp only
      split
      · simp
      · split
        · simp
        · split
          · dsimp only
            exact log_dataframe_no_type_err sha s now _ none false h
          · dsimp only
            rcases logSingleCore_err sha s (fn.getD "") v with h' | h' <;> simp [h']
    · split
      · rename_i s1 ev e heq2
        rcases rotate_time_err s now with h' | h' | h' <;> rw [heq2] at h' <;> simp at h' <;>
          simp [h']
      · rename_i s1 ev heq2
        have hs1 : segInv s1 := by
          refine segInv_of_sameCfg ?_ h
          have hh := rotate_time_sameCfg s now
          rw [heq2] at hh
          exact hh
        split
        · simp
        · split
          · simp
          · split
            · dsimp only
              exact log_dataframe_no_type_err sha s1 now _ none false hs1
            · dsimp only
              rcases logSingleCore_err sha s1 (fn.getD "") v with h' | h' <;> simp [h']

theorem log_dataframe_segInv (sha : String → String) (s : LoggerState) (now : Nat)
    (df : DataFrame) (segs : Option (List SegElem)) (pfd : Bool) (h : segInv s) :
    segInv (log_dataframe sha s now df segs pfd).1 := by
  unfold log_dataframe
  split
  · exact h
  · dsimp only
    rcases preamble_cases s now with heq | heq <;> rw [heq]
    · dsimp only
      exact ldfCore_segInv sha s now df segs pfd h
    · split
      · rename_i s1 ev e heq2
        refine segInv_of_sameCfg ?_ h
        have hh := rotate_time_sameCfg s now
        rw [heq2] at hh
        exact hh
      · rename_i s1 ev heq2
        have hs1 : segInv s1 := by
          refine segInv_of_sameCfg ?_ h
          have hh := rotate_time_sameCfg s now
          rw [heq2] at hh
          exact hh
        dsimp only
        exact ldfCore_segInv sha s1 now df segs pfd hs1

theorem log_segInv (sha : String → String) (s : LoggerState) (now : Nat)
    (fs : Option (List (String × Val))) (fn : Option String) (v : Val) (h : segInv s) :
    segInv (log sha s now fs fn v).1 := by
  unfold log
  split
  · exact h
  · dsimp only
    rcases preamble_cases s now with heq | heq <;> rw [heq]
    · dsimp only
      split
      · exact h
      · split
        · exact h
        · split
          · dsimp only
            exact log_dataframe_segInv sha s now _ none false h
          · dsimp only
            exact segInv_of_sameCfg (logSingleCore_sameCfg sha s (fn.getD "") v) h
    · split
      · rename_i s1 ev e heq2
        refine segInv_of_sameCfg ?_ h
        have hh := rotate_time_sameCfg s now
        rw [heq2] at hh
        exact hh
      · rename_i s1 ev heq2
        have hs1 : segInv s1 := by
          refine segInv_of_sameCfg ?_ h
          have hh := rotate_time_sameCfg s now
          rw [heq2] at hh
          exact hh
        split
        · exact hs1
        · split
          · exact hs1
          · split
            · dsimp only
              exact log_dataframe_segInv sha s1 now _ none false hs1
            · dsimp only
              exact segInv_of_sameCfg (logSingleCore_sameCfg sha s1 (fn.getD "") v) hs1

theorem close_segInv (s : LoggerState) (now : Nat) (h : segInv s) :
    segInv (close s now).1 := by
  unfold close
  split
  · exact h
  · split
    · dsimp only
      split
      · exact h
      · exact segInv_of_eq rfl rfl h
    · dsimp only
      split
      · refine segInv_of_sameCfg ?_ h
        exact rotate_time_sameCfg s now
      · refine segInv_of_eq ?_ ?_ h
        · exact (rotate_time_sameCfg s now).2.1
        · exact (rotate_time_sameCfg s now).2.2.1

theorem step_segInv (sha : String → String) (s : LoggerState) (op : Op) (h : segInv s) :
    segInv (step sha s op).1 := by
  cases op with
  | logSingle now n v => exact log_segInv sha s now none (some n) v h
  | logMap now fs => exact log_segInv sha s now (some fs) none Val.null h
  | logDF now df segs pfd => exact log_dataframe_segInv sha s now df segs pfd h
  | closeOp now => exact close_segInv s now h

theorem mem_lastSet {s : LoggerState} {ps : ProfileSet} (h : lastSet s = some ps) :
    some ps ∈ s.profiles := by
  unfold lastSet at h
  rcases hg : s.profiles.getLast? with _ | e
  · rw [hg] at h
    simp at h
  · rw [hg] at h
    rw [show (some e).join = e from rfl] at h
    rw [← h]
    exact List.mem_of_mem_getLast? hg

theorem fullsNone_lastSet {s : LoggerState} {ps : ProfileSet} (hf : fullsNone s)
    (h : lastSet s = some ps) : ps.full_profile = none := by
  have hm := hf (some ps) (mem_lastSet h)
  simpa [optFullNone, Option.isNone_iff_eq_none] using hm

theorem fullsNone_setLastSet {s : LoggerState} {ps' : ProfileSet} (hf : fullsNone s)
    (h : ps'.full_profile = none) : fullsNone (setLastSet s ps') := by
  intro e he
  rcases List.mem_append.mp he with h' | h'
  · exact hf e (List.dropLast_subset _ h')
  · rw [List.mem_singleton.mp h']
    simp [optFullNone, h]

theorem noFull_check {s : LoggerState} (h : noFullState s) : full_profile_check s = false := by
  obtain ⟨hseg, hpfd, -⟩ := h
  unfold full_profile_check
  rw [hpfd]
  rcases hsg : s.segments with _ | l
  · rw [hsg] at hseg
    simp at hseg
  · simp

theorem fullOn_check {s : LoggerState} (h : fullOnState s) : full_profile_check s = true := by
  obtain ⟨hseg, hpfd, -⟩ := h
  unfold full_profile_check
  rw [hpfd]
  rcases hsg : s.segments with _ | l
  · rw [hsg] at hseg
    simp at hseg
  · simp

theorem check_congr {a b : LoggerState} (h1 : a.segments = b.segments)
    (h2 : a.profile_full_dataset = b.profile_full_dataset) :
    full_profile_check a = full_profile_check b := by
  unfold full_profile_check
  rw [h1, h2]

theorem noFullState_of_sameCfg {a b : LoggerState} (h : sameCfg a b) (hfa : fullsNone a)
    (hb : noFullState b) : noFullState a := by
  refine ⟨?_, ?_, hfa⟩
  · rw [h.2.1]
    exact hb.1
  · rw [h.2.2.2.1]
    exact hb.2.1

theorem fullOnState_of_sameCfg {a b : LoggerState} (h : sameCfg a b)
    (hfa : hasFullLast a = true) (hb : fullOnState b) : fullOnState a := by
  refine ⟨?_, ?_, hfa⟩
  · rw [h.2.1]
    exact hb.1
  · rw [h.2.2.2.1]
    exact hb.2.1

theorem log_df_segment_fullsNone (sha : String → String) (s : LoggerState) (now : Nat)
    (df : DataFrame) (seg : Segment) (hf : fullsNone s) :
    fullsNone (log_df_segment sha s now df seg) := by
  unfold log_df_segment
  split
  · exact hf
  · rename_i x ps heq
    have hfull : ps.full_profile = none := fullsNone_lastSet hf heq
    dsimp only
    split
    · exact fullsNone_setLastSet hf hfull
    · exact fullsNone_setLastSet hf hfull

theorem foldl_pair_pred {α : Type}
    (f : LoggerState × Option Err → α → LoggerState × Option Err)
    (P : LoggerState → Prop) (hf : ∀ p x, P p.1 → P (f p x).1) :
    ∀ (l : List α) (p : LoggerState × Option Err), P p.1 → P ((l.foldl f p).1) := by
  intro l
  induction l with
  | nil => intro p hp; exact hp
  | cons x xs ih =>
    intro p hp
    simp only [List.foldl_cons]
    exact ih (f p x) (hf p x hp)

theorem log_segments_keys_fullsNone (sha : String → String) (s : LoggerState) (now : Nat)
    (df : DataFrame) (hf : fullsNone s) : fullsNone (log_segments_keys sha s now df).1 := by
  unfold log_segments_keys
  dsimp only
  split
  · exact hf
  · exact foldl_pred _ fullsNone
      (fun st tup hst => log_df_segment_fullsNone sha st now _ _ hst) _ s hf

theorem log_fixed_segments_fullsNone (sha : String → String) (s : LoggerState) (now : Nat)
    (df : DataFrame) (hf : fullsNone s) : fullsNone (log_fixed_segments sha s now df).1 := by
  unfold log_fixed_segments
  refine foldl_pair_pred _ fullsNone ?_ _ (s, none) hf
  intro p tag hp
  rcases p with ⟨st, e⟩
  rcases e with _ | e
  · dsimp only
    repeat' split
    all_goals first
      | exact hp
      | exact log_df_segment_fullsNone sha st now _ _ hp
  · exact hp

theorem log_segments_fullsNone (sha : String → String) (s : LoggerState) (now : Nat)
    (df : DataFrame) (hf : fullsNone s) : fullsNone (log_segments sha s now df).1 := by
  unfold log_segments
  split
  · exact log_segments_keys_fullsNone sha s now df hf
  · exact log_fixed_segments_fullsNone sha s now df hf
  · exact hf

theorem log_segment_datum_fullsNone (sha : String → String) (s : LoggerState) (fn : String)
    (v : Val) (hf : fullsNone s) : fullsNone (log_segment_datum sha s fn v).1 := by
  unfold log_segment_datum
  dsimp only
  repeat' split
  all_goals first
    | exact hf
    | (rename_i ps heq
       have h0 := fullsNone_lastSet hf heq
       exact fullsNone_setLastSet hf h0)

theorem trackFullDF_skip (s : LoggerState) (df : DataFrame)
    (hc : full_profile_check s = false) : trackFullDF s df = (s, none) := by
  unfold trackFullDF
  simp [hc]

theorem trackFullDatum_skip (s : LoggerState) (fn : String) (v : Val)
    (hc : full_profile_check s = false) : trackFullDatum s fn v = (s, none) := by
  unfold trackFullDatum
  simp [hc]

theorem mem_plannedFrom_full_check {s : LoggerState} {sfx : Option String} :
    ∀ (ws : List Writer) (i : Nat) (a : Attempt), a ∈ plannedFrom s sfx i ws →
      a.target = WTarget.full → full_profile_check s = true := by
  intro ws
  induction ws with
  | nil => intro i a ha; simp [plannedFrom] at ha
  | cons w ws ih =>
    intro i a ha htarget
    rcases List.mem_append.mp ha with ha | ha
    · unfold writerPlanned at ha
      rcases List.mem_append.mp ha with h | h
      · by_cases hc : full_profile_check s
        · exact hc
        · simp [hc] at h
      · by_cases hc : s.segments.isSome
        · simp only [hc, if_true] at h
          rcases List.mem_map.mp h with ⟨kv, _, hkv⟩
          rw [← hkv] at htarget
          simp at htarget
        · simp [hc] at h
    · exact ih (i + 1) a ha htarget

theorem flush_attempts_subset (s : LoggerState) (sfx : Option String) :
    ∀ a ∈ (flush s sfx).1, a ∈ planned s sfx := by
  intro a ha
  unfold flush at ha
  split at ha
  · simp at ha
  · rw [runCalls_eq] at ha
    exact List.take_subset _ _ ha

theorem flush_no_full_attempts (s : LoggerState) (sfx : Option String)
    (hc : full_profile_check s = false) :
    ∀ a ∈ (flush s sfx).1, a.target ≠ WTarget.full := by
  intro a ha habs
  have hsub := flush_attempts_subset s sfx a ha
  have := mem_plannedFrom_full_check s.writers 0 a hsub habs
  rw [hc] at this
  simp at this

theorem fullsNone_trimCache (s : LoggerState) (hf : fullsNone s) :
    fullsNone (trimCache s) := by
  unfold trimCache
  split
  · intro e he
    rcases List.mem_or_eq_of_mem_set he with h' | h'
    · exact hf e h'
    · rw [h']
      rfl
  · exact hf

theorem fullsNone_intialize (s : LoggerState) (d : Option Nat)
    (hc : full_profile_check s = false) (hf : fullsNone s) :
    fullsNone (intialize_profiles s d) := by
  unfold intialize_profiles
  simp only [hc, Bool.false_eq_true, if_false]
  intro e he
  rcases List.mem_append.mp he with h' | h'
  · exact hf e h'
  · rw [List.mem_singleton.mp h']
    rfl

theorem rotate_time_noFull (s : LoggerState) (now : Nat) (h : noFullState s) :
    noFullState (rotate_time s now).1 ∧
    ∀ a ∈ (rotate_time s now).2.1, a.target ≠ WTarget.full := by
  obtain ⟨hseg, hpfd, hf⟩ := h
  have hc : full_profile_check s = false := noFull_check ⟨hseg, hpfd, hf⟩
  unfold rotate_time
  split
  · exact ⟨⟨hseg, hpfd, hf⟩, by simp⟩
  · rename_i x ps heq
    simp only [hc, Bool.false_and, Bool.false_eq_true, if_false]
    have hps2full : (stampSegs (rotationLabel s) s (stampFull (rotationLabel s) s ps)).full_profile
        = none := by
      rw [stampSegs_full]
      unfold stampFull
      rw [hc]
      simp only [Bool.false_eq_true, if_false]
      exact fullsNone_lastSet hf heq
    have hs1 : noFullState (setLastSet s
        (stampSegs (rotationLabel s) s (stampFull (rotationLabel s) s ps))) :=
      ⟨hseg, hpfd, fullsNone_setLastSet hf hps2full⟩
    have hc1 : full_profile_check (setLastSet s
        (stampSegs (rotationLabel s) s (stampFull (rotationLabel s) s ps))) = false :=
      (check_congr rfl rfl).trans hc
    have hatt := flush_no_full_attempts (setLastSet s
        (stampSegs (rotationLabel s) s (stampFull (rotationLabel s) s ps)))
      (some (suffixString (rotationLabel s))) hc1
    split
    · exact ⟨hs1, hatt⟩
    · refine ⟨?_, hatt⟩
      have hc2 : full_profile_check (trimCache (setLastSet s
          (stampSegs (rotationLabel s) s (stampFull (rotationLabel s) s ps)))) = false := by
        have hsc := trimCache_sameCfg (setLastSet s
          (stampSegs (rotationLabel s) s (stampFull (rotationLabel s) s ps)))
        exact (check_congr hsc.2.1 hsc.2.2.2.1).trans hc1
      refine noFullState_of_sameCfg ?_ ?_ hs1
      · exact sameCfg_trans (rotateAt_sameCfg _ _)
          (sameCfg_trans (intialize_sameCfg _ _) (trimCache_sameCfg _))
      · intro e he
        exact fullsNone_intialize _ _ hc2 (fullsNone_trimCache _ hs1.2.2) e he

theorem fullsNone_congr {a b : LoggerState} (h : a.profiles = b.profiles)
    (hb : fullsNone b) : fullsNone a := by
  intro e he
  rw [h] at he
  exact hb e he

theorem set_segments_cons_segments (x : LoggerState) (a : SegElem) (l : List SegElem) :
    (set_segments x (some (a :: l))).segments = some (a :: l) := by
  unfold set_segments
  dsimp only
  rw [if_neg (by simp)]
  split <;> rfl

theorem ldfPrefix_noFull (s1 : LoggerState) (segs : Option (List SegElem)) (pfd : Bool)
    (h : noFullState s1) (hpfd : pfd = false)
    (hsegs : segs = none ∨ segTruthy segs = true) :
    noFullState (ldfPrefix s1 segs pfd) := by
  have hfacts := ldfPrefix_facts s1 segs pfd
  refine ⟨?_, hfacts.1.trans hpfd, fullsNone_congr hfacts.2.2.2.1 h.2.2⟩
  rcases hsegs with rfl | ht
  · rw [(hfacts.2.2.2.2 rfl).1]
    exact h.1
  · rcases segs with _ | l
    · rw [(hfacts.2.2.2.2 rfl).1]
      exact h.1
    · rcases l with _ | ⟨a, l⟩
      · simp [segTruthy] at ht
      · have hseg : (ldfPrefix s1 (some (a :: l)) pfd).segments = some (a :: l) := by
          show (set_segments { s1 with profile_full_dataset := pfd }
            (some (a :: l))).segments = some (a :: l)
          exact set_segments_cons_segments _ a l
        rw [hseg]
        rfl

theorem ldfCore_noFull (sha : String → String) (s1 : LoggerState) (now : Nat)
    (df : DataFrame) (segs : Option (List SegElem)) (pfd : Bool)
    (h : noFullState s1) (hpfd : pfd = false)
    (hsegs : segs = none ∨ segTruthy segs = true) :
    noFullState (ldfCore sha s1 now df segs pfd).1 := by
  have hpre := ldfPrefix_noFull s1 segs pfd h hpfd hsegs
  have hc : full_profile_check (ldfPrefix s1 segs pfd) = false := noFull_check hpre
  unfold ldfCore
  rw [trackFullDF_skip _ df hc]
  dsimp only
  split
  · exact noFullState_of_sameCfg (log_segments_sameCfg sha (ldfPrefix s1 segs pfd) now df)
      (log_segments_fullsNone sha _ now df hpre.2.2) hpre
  · exact hpre

theorem logSingleCore_noFull (sha : String → String) (s : LoggerState) (fn : String)
    (v : Val) (h : noFullState s) : noFullState (logSingleCore sha s fn v).1 := by
  have hc := noFull_check h
  unfold logSingleCore
  rw [trackFullDatum_skip s fn v hc]
  dsimp only
  split
  · exact noFullState_of_sameCfg (log_segment_datum_sameCfg sha s fn v)
      (log_segment_datum_fullsNone sha s fn v h.2.2) h
  · exact h

theorem log_dataframe_noFull (sha : String → String) (s : LoggerState) (now : Nat)
    (df : DataFrame) (segs : Option (List SegElem)) (pfd : Bool)
    (h : noFullState s) (hpfd : pfd = false)
    (hsegs : segs = none ∨ segTruthy segs = true) :
    noFullState (log_dataframe sha s now df segs pfd).1 ∧
    ∀ a ∈ (log_dataframe sha s now df segs pfd).2.1, a.target ≠ WTarget.full := by
  unfold log_dataframe
  split
  · exact ⟨h, by simp⟩
  · dsimp only
    rcases preamble_cases s now with heq | heq <;> rw [heq]
    · dsimp only
      exact ⟨ldfCore_noFull sha s now df segs pfd h hpfd hsegs, by simp⟩
    · split
      · rename_i s1 ev e heq2
        have hrot := rotate_time_noFull s now h
        rw [heq2] at hrot
        exact ⟨hrot.1, hrot.2⟩
      · rename_i s1 ev heq2
        have hrot := rotate_time_noFull s now h
        rw [heq2] at hrot
        dsimp only
        exact ⟨ldfCore_noFull sha s1 now df segs pfd hrot.1 hpfd hsegs, hrot.2⟩

theorem log_noFull (sha : String → String) (s : LoggerState) (now : Nat)
    (fs : Option (List (String × Val))) (fn : Option String) (v : Val)
    (h : noFullState s) :
    noFullState (log sha s now fs fn v).1 ∧
    ∀ a ∈ (log sha s now fs fn v).2.1, a.target ≠ WTarget.full := by
  unfold log
  split
  · exact ⟨h, by simp⟩
  · dsimp only
    rcases preamble_cases s now with heq | heq <;> rw [heq]
    · dsimp only
      split
      · exact ⟨h, by simp⟩
      · split
        · exact ⟨h, by simp⟩
        · split
          · rename_i fs0 hni hns
            dsimp only
            have hd := log_dataframe_noFull sha s now (dfOfFeatures fs0) none false h rfl
              (Or.inl rfl)
            refine ⟨hd.1, ?_⟩
            intro a ha
            exact hd.2 a (by simpa using ha)
          · dsimp only
            exact ⟨logSingleCore_noFull sha s _ v h, by simp⟩
    · split
      · rename_i s1 ev e heq2
        have hrot := rotate_time_noFull s now h
        rw [heq2] at hrot
        exact ⟨hrot.1, hrot.2⟩
      · rename_i s1 ev heq2
        have hrot := rotate_time_noFull s now h
        rw [heq2] at hrot
        split
        · exact ⟨hrot.1, hrot.2⟩
        · split
          · exact ⟨hrot.1, hrot.2⟩
          · split
            · rename_i fs0 hni hns
              dsimp only
              have hd := log_dataframe_noFull sha s1 now (dfOfFeatures fs0) none false hrot.1
                rfl (Or.inl rfl)
              refine ⟨hd.1, ?_⟩
              intro a ha
              rcases List.mem_append.mp ha with h' | h'
              · exact hrot.2 a h'
              · exact hd.2 a h'
            · dsimp only
              exact ⟨logSingleCore_noFull sha s1 _ v hrot.1, hrot.2⟩

theorem close_noFull (s : LoggerState) (now : Nat) (h : noFullState s) :
    noFullState (close s now).1 ∧ ∀ a ∈ (close s now).2.1, a.target ≠ WTarget.full := by
  have hc := noFull_check h
  unfold close
  split
  · exact ⟨h, by simp⟩
  · split
    · dsimp only
      split
      · exact ⟨h, flush_no_full_attempts s none hc⟩
      · exact ⟨⟨h.1, h.2.1, h.2.2⟩, flush_no_full_attempts s none hc⟩
    · dsimp only
      split
      · have hrot := rotate_time_noFull s now h
        exact ⟨hrot.1, hrot.2⟩
      · have hrot := rotate_time_noFull s now h
        refine ⟨⟨hrot.1.1, hrot.1.2.1, ?_⟩, hrot.2⟩
        intro e he
        exact hrot.1.2.2 e (List.dropLast_subset _ he)

theorem step_noFull (sha : String → String) (s : LoggerState) (op : Op)
    (h : noFullState s) (hop : okFalseOp op = true) :
    noFullState (step sha s op).1 ∧ ∀ a ∈ (step sha s op).2.1, a.target ≠ WTarget.full := by
  cases op with
  | logSingle now n v => exact log_noFull sha s now none (some n) v h
  | logMap now fs => exact log_noFull sha s now (some fs) none Val.null h
  | logDF now df segs pfd =>
    have hpfd : pfd = false := by
      cases pfd
      · rfl
      · simp [okFalseOp] at hop
    have hsegs : segs = none ∨ segTruthy segs = true := by
      rcases segs with _ | l
      · exact Or.inl rfl
      · refine Or.inr ?_
        cases hts : segTruthy (some l)
        · simp [okFalseOp, hts, hpfd] at hop
        · rfl
    exact log_dataframe_noFull sha s now df segs pfd h hpfd hsegs
  | closeOp now => exact close_noFull s now h

theorem run_noFull (sha : String → String) :
    ∀ (ops : List Op) (s : LoggerState), noFullState s → ops.all okFalseOp = true →
      noFullState (run sha s ops).1 ∧ ∀ a ∈ (run sha s ops).2, a.target ≠ WTarget.full := by
  intro ops
  induction ops with
  | nil =>
    intro s h _
    exact ⟨h, by simp [run]⟩
  | cons op ops ih =>
    intro s h hall
    simp only [List.all_cons, Bool.and_eq_true] at hall
    have hstep := step_noFull sha s op h hall.1
    have hrest := ih (step sha s op).1 hstep.1 hall.2
    constructor
    · exact hrest.1
    · intro a ha
      have ha' : a ∈ (step sha s op).2.1 ++ (run sha (step sha s op).1 ops).2 := ha
      rcases List.mem_append.mp ha' with h' | h'
      · exact hstep.2 a h'
      · exact hrest.2 a h'

theorem hasFullLast_congr {a b : LoggerState} (h : a.profiles = b.profiles) :
    hasFullLast a = hasFullLast b := by
  unfold hasFullLast lastSet
  rw [h]

theorem trackFullDF_fullOn (s : LoggerState) (df : DataFrame)
    (hc : full_profile_check s = true) (hl : hasFullLast s = true) :
    ∃ ps p, lastSet s = some ps ∧ ps.full_profile = some p ∧
      trackFullDF s df =
        (setLastSet s { ps with full_profile := some (track_dataframe p df) }, none) := by
  unfold hasFullLast at hl
  rcases hps : lastSet s with _ | ps
  · rw [hps] at hl
    simp at hl
  · rw [hps] at hl
    dsimp only at hl
    rcases hp : ps.full_profile with _ | p
    · rw [hp] at hl
      simp at hl
    · exact ⟨ps, p, rfl, hp, by simp [trackFullDF, hc, hps, hp]⟩

theorem trackFullDatum_fullOn (s : LoggerState) (fn : String) (v : Val)
    (hc : full_profile_check s = true) (hl : hasFullLast s = true) :
    ∃ ps p, lastSet s = some ps ∧ ps.full_profile = some p ∧
      trackFullDatum s fn v =
        (setLastSet s { ps with full_profile := some (track_datum p fn v) }, none) := by
  unfold hasFullLast at hl
  rcases hps : lastSet s with _ | ps
  · rw [hps] at hl
    simp at hl
  · rw [hps] at hl
    dsimp only at hl
    rcases hp : ps.full_profile with _ | p
    · rw [hp] at hl
      simp at hl
    · exact ⟨ps, p, rfl, hp, by simp [trackFullDatum, hc, hps, hp]⟩

theorem log_df_segment_hasFull (sha : String → String) (s : LoggerState) (now : Nat)
    (df : DataFrame) (seg : Segment) (hl : hasFullLast s = true) :
    hasFullLast (log_df_segment sha s now df seg) = true := by
  unfold log_df_segment
  split
  · exact hl
  · rename_i x ps heq
    unfold hasFullLast at hl
    rw [heq] at hl
    dsimp only
    split
    · unfold hasFullLast
      rw [lastSet_setLastSet]
      exact hl
    · unfold hasFullLast
      rw [lastSet_setLastSet]
      exact hl

theorem log_segments_keys_hasFull (sha : String → String) (s : LoggerState) (now : Nat)
    (df : DataFrame) (hl : hasFullLast s = true) :
    hasFullLast (log_segments_keys sha s now df).1 = true := by
  unfold log_segments_keys
  dsimp only
  split
  · exact hl
  · exact foldl_pred _ (fun st => hasFullLast st = true)
      (fun st tup hst => log_df_segment_hasFull sha st now _ _ hst) _ s hl

theorem log_fixed_segments_hasFull (sha : String → String) (s : LoggerState) (now : Nat)
    (df : DataFrame) (hl : hasFullLast s = true) :
    hasFullLast (log_fixed_segments sha s now df).1 = true := by
  unfold log_fixed_segments
  refine foldl_pair_pred _ (fun st => hasFullLast st = true) ?_ _ (s, none) hl
  intro p tag hp
  rcases p with ⟨st, e⟩
  rcases e with _ | e
  · dsimp only
    repeat' split
    all_goals first
      | exact hp
      | exact log_df_segment_hasFull sha st now _ _ hp
  · exact hp

theorem log_segments_hasFull (sha : String → String) (s : LoggerState) (now : Nat)
    (df : DataFrame) (hl : hasFullLast s = true) :
    hasFullLast (log_segments sha s now df).1 = true := by
  unfold log_segments
  split
  · exact log_segments_keys_hasFull sha s now df hl
  · exact log_fixed_segments_hasFull sha s now df hl
  · exact hl

theorem log_segment_datum_hasFull (sha : String → String) (s : LoggerState) (fn : String)
    (v : Val) (hl : hasFullLast s = true) :
    hasFullLast (log_segment_datum sha s fn v).1 = true := by
  unfold log_segment_datum
  dsimp only
  repeat' split
  all_goals first
    | exact hl
    | (rename_i ps heq
       unfold hasFullLast at hl ⊢
       rw [heq] at hl
       rw [lastSet_setLastSet]
       exact hl)

theorem hasFullLast_intialize (x : LoggerState) (d : Option Nat)
    (hc : full_profile_check x = true) : hasFullLast (intialize_profiles x d) = true := by
  unfold hasFullLast lastSet intialize_profiles
  dsimp only
  rw [List.getLast?_concat]
  simp [hc]

theorem rotate_time_fullOn (s : LoggerState) (now : Nat) (h : fullOnState s)
    (ha : s.active = true) (hw : ∀ w ∈ s.writers, w.failing = false) :
    (rotate_time s now).2.2 = none ∧ fullOnState (rotate_time s now).1 ∧
    ∀ i, i < s.writers.length →
      ∃ a ∈ (rotate_time s now).2.1, a.widx = i ∧ a.target = WTarget.full := by
  have hc : full_profile_check s = true := fullOn_check h
  have hl := h.2.2
  unfold hasFullLast at hl
  rcases hps : lastSet s with _ | ps
  · rw [hps] at hl
    simp at hl
  · rw [hps] at hl
    dsimp only at hl
    have hguard : (full_profile_check s && ps.full_profile.isNone) = false := by
      rcases hv : ps.full_profile with _ | p
      · rw [hv] at hl
        simp at hl
      · simp [hv]
    rw [rotate_time_ok s now ps ha hps hguard hw]
    refine ⟨rfl, ?_, ?_⟩
    · refine fullOnState_of_sameCfg ?_ ?_ h
      · exact sameCfg_trans (rotateAt_sameCfg _ _)
          (sameCfg_trans (intialize_sameCfg _ _)
            (sameCfg_trans (trimCache_sameCfg _) (setLastSet_sameCfg s _)))
      · have hc2 : full_profile_check (trimCache (setLastSet s
            (stampSegs (rotationLabel s) s (stampFull (rotationLabel s) s ps)))) = true := by
          have h1 := trimCache_sameCfg (setLastSet s
            (stampSegs (rotationLabel s) s (stampFull (rotationLabel s) s ps)))
          exact ((check_congr h1.2.1 h1.2.2.2.1).trans ((check_congr rfl rfl).trans hc))
        have h3 := hasFullLast_intialize (trimCache (setLastSet s
          (stampSegs (rotationLabel s) s (stampFull (rotationLabel s) s ps))))
          (some (trimCache (setLastSet s
            (stampSegs (rotationLabel s) s (stampFull (rotationLabel s) s ps)))).init_default_ts)
          hc2
        exact (hasFullLast_congr rfl).trans h3
    · intro i hi
      have hc1 : full_profile_check (setLastSet s
          (stampSegs (rotationLabel s) s (stampFull (rotationLabel s) s ps))) = true :=
        (check_congr rfl rfl).trans hc
      obtain ⟨a, hmem, hwidx, htar⟩ := plannedFrom_full_mem hc1 s.writers 0 i hi
      refine ⟨a, hmem, ?_, htar⟩
      rw [hwidx]
      exact Nat.zero_add i

theorem ldfPrefix_fullOn (s1 : LoggerState) (segs : Option (List SegElem)) (pfd : Bool)
    (h : fullOnState s1) (hpfd : pfd = true)
    (hsegs : segs = none ∨ segTruthy segs = true) :
    fullOnState (ldfPrefix s1 segs pfd) := by
  have hfacts := ldfPrefix_facts s1 segs pfd
  refine ⟨?_, hfacts.1.trans hpfd, (hasFullLast_congr hfacts.2.2.2.1).trans h.2.2⟩
  rcases hsegs with rfl | ht
  · rw [(hfacts.2.2.2.2 rfl).1]
    exact h.1
  · rcases segs with _ | l
    · rw [(hfacts.2.2.2.2 rfl).1]
      exact h.1
    · rcases l with _ | ⟨a, l⟩
      · simp [segTruthy] at ht
      · have hseg : (ldfPrefix s1 (some (a :: l)) pfd).segments = some (a :: l) := by
          show (set_segments { s1 with profile_full_dataset := pfd }
            (some (a :: l))).segments = some (a :: l)
          exact set_segments_cons_segments _ a l
        rw [hseg]
        rfl

theorem ldfCore_fullOn (sha : String → String) (s1 : LoggerState) (now : Nat)
    (df : DataFrame) (segs : Option (List SegElem)) (pfd : Bool)
    (h : fullOnState s1) (hpfd : pfd = true)
    (hsegs : segs = none ∨ segTruthy segs = true) :
    fullOnState (ldfCore sha s1 now df segs pfd).1 := by
  have hpre := ldfPrefix_fullOn s1 segs pfd h hpfd hsegs
  obtain ⟨ps, p, hps, hp, heq⟩ :=
    trackFullDF_fullOn (ldfPrefix s1 segs pfd) df (fullOn_check hpre) hpre.2.2
  unfold ldfCore
  rw [heq]
  dsimp only
  have h2 : fullOnState (setLastSet (ldfPrefix s1 segs pfd)
      { ps with full_profile := some (track_dataframe p df) }) := by
    refine fullOnState_of_sameCfg (setLastSet_sameCfg _ _) ?_ hpre
    unfold hasFullLast
    rw [lastSet_setLastSet]
    rfl
  split
  · exact fullOnState_of_sameCfg (log_segments_sameCfg sha _ now df)
      (log_segments_hasFull sha _ now df h2.2.2) h2
  · exact h2

theorem logSingleCore_fullOn (sha : String → String) (s : LoggerState) (fn : String)
    (v : Val) (h : fullOnState s) : fullOnState (logSingleCore sha s fn v).1 := by
  obtain ⟨ps, p, hps, hp, heq⟩ := trackFullDatum_fullOn s fn v (fullOn_check h) h.2.2
  unfold logSingleCore
  rw [heq]
  dsimp only
  have h2 : fullOnState (setLastSet s
      { ps with full_profile := some (track_datum p fn v) }) := by
    refine fullOnState_of_sameCfg (setLastSet_sameCfg _ _) ?_ h
    unfold hasFullLast
    rw [lastSet_setLastSet]
    rfl
  split
  · exact fullOnState_of_sameCfg (log_segment_datum_sameCfg sha _ fn v)
      (log_segment_datum_hasFull sha _ fn v h2.2.2) h2
  · exact h2

theorem active_true_of_not_false {s : LoggerState} (h : ¬s.active = false) :
    s.active = true := by
  rcases hA : s.active
  · exact absurd hA h
  · rfl

theorem log_dataframe_fullOn (sha : String → String) (s : LoggerState) (now : Nat)
    (df : DataFrame) (segs : Option (List SegElem)) (pfd : Bool)
    (h : fullOnState s) (hw : ∀ w ∈ s.writers, w.failing = false) (hpfd : pfd = true)
    (hsegs : segs = none ∨ segTruthy segs = true) :
    fullOnState (log_dataframe sha s now df segs pfd).1 := by
  unfold log_dataframe
  split
  · exact h
  · rename_i hact
    have ha := active_true_of_not_false hact
    dsimp only
    rcases preamble_cases s now with heq | heq <;> rw [heq]
    · dsimp only
      exact ldfCore_fullOn sha s now df segs pfd h hpfd hsegs
    · have hrot := rotate_time_fullOn s now h ha hw
      split
      · rename_i s1 ev e heq2
        rw [heq2] at hrot
        exact absurd hrot.1 (by simp)
      · rename_i s1 ev heq2
        rw [heq2] at hrot
        dsimp only
        exact ldfCore_fullOn sha s1 now df segs pfd hrot.2.1 hpfd hsegs

theorem log_single_fullOn (sha : String → String) (s : LoggerState) (now : Nat)
    (n : String) (v : Val) (h : fullOnState s)
    (hw : ∀ w ∈ s.writers, w.failing = false) :
    fullOnState (log sha s now none (some n) v).1 := by
  unfold log
  split
  · exact h
  · rename_i hact
    have ha := active_true_of_not_false hact
    dsimp only
    rcases preamble_cases s now with heq | heq <;> rw [heq]
    · dsimp only
      rw [if_neg (by simp), if_neg (by simp)]
      dsimp only
      exact logSingleCore_fullOn sha s n v h
    · have hrot := rotate_time_fullOn s now h ha hw
      split
      · rename_i s1 ev e heq2
        rw [heq2] at hrot
        exact absurd hrot.1 (by simp)
      · rename_i s1 ev heq2
        rw [heq2] at hrot
        rw [if_neg (by simp), if_neg (by simp)]
        dsimp only
        exact logSingleCore_fullOn sha s1 n v hrot.2.1

theorem ldfCore_cfgEq (sha : String → String) (s1 : LoggerState) (now : Nat)
    (df : DataFrame) (segs : Option (List SegElem)) (pfd : Bool) :
    cfgEq (ldfCore sha s1 now df segs pfd).1 s1 :=
  cfgEq_trans (ldfCore_sameCfg sha s1 now df segs pfd).1 (ldfPrefix_facts s1 segs pfd).2.1

theorem log_dataframe_cfgEq (sha : String → String) (s : LoggerState) (now : Nat)
    (df : DataFrame) (segs : Option (List SegElem)) (pfd : Bool) :
    cfgEq (log_dataframe sha s now df segs pfd).1 s := by
  unfold log_dataframe
  split
  · exact cfgEq_refl s
  · dsimp only
    rcases preamble_cases s now with heq | heq <;> rw [heq]
    · dsimp only
      exact ldfCore_cfgEq sha s now df segs pfd
    · split
      · rename_i s1 ev e heq2
        have hh := (rotate_time_sameCfg s now).1
        rw [heq2] at hh
        exact hh
      · rename_i s1 ev heq2
        have hh := (rotate_time_sameCfg s now).1
        rw [heq2] at hh
        dsimp only
        exact cfgEq_trans (ldfCore_cfgEq sha s1 now df segs pfd) hh

theorem log_cfgEq (sha : String → String) (s : LoggerState) (now : Nat)
    (fs : Option (List (String × Val))) (fn : Option String) (v : Val) :
    cfgEq (log sha s now fs fn v).1 s := by
  unfold log
  split
  · exact cfgEq_refl s
  · dsimp only
    rcases preamble_cases s now with heq | heq <;> rw [heq]
    · dsimp only
      split
      · exact cfgEq_refl s
      · split
        · exact cfgEq_refl s
        · split
          · rename_i fs0 hni hns
            dsimp only
            exact log_dataframe_cfgEq sha s now (dfOfFeatures fs0) none false
          · dsimp only
            exact (logSingleCore_sameCfg sha s _ v).1
    · split
      · rename_i s1 ev e heq2
        have hh := (rotate_time_sameCfg s now).1
        rw [heq2] at hh
        exact hh
      · rename_i s1 ev heq2
        have hh := (rotate_time_sameCfg s now).1
        rw [heq2] at hh
        split
        · exact hh
        · split
          · exact hh
          · split
            · rename_i fs0 hni hns
              dsimp only
              exact cfgEq_trans
                (log_dataframe_cfgEq sha s1 now (dfOfFeatures fs0) none false) hh
            · dsimp only
              exact cfgEq_trans (logSingleCore_sameCfg sha s1 _ v).1 hh

theorem close_cfgEq (s : LoggerState) (now : Nat) : cfgEq (close s now).1 s := by
  unfold close
  split
  · exact cfgEq_refl s
  · split
    · dsimp only
      split
      · exact cfgEq_refl s
      · exact (by simp [cfgEq] : cfgEq { s with active := false } s)
    · dsimp only
      split
      · exact (rotate_time_sameCfg s now).1
      · exact cfgEq_trans (by simp [cfgEq]) (rotate_time_sameCfg s now).1

theorem step_cfgEq (sha : String → String) (s : LoggerState) (op : Op) :
    cfgEq (step sha s op).1 s := by
  cases op with
  | logSingle now n v => exact log_cfgEq sha s now none (some n) v
  | logMap now fs => exact log_cfgEq sha s now (some fs) none Val.null
  | logDF now df segs pfd => exact log_dataframe_cfgEq sha s now df segs pfd
  | closeOp now => exact close_cfgEq s now

theorem step_fullOn (sha : String → String) (s : LoggerState) (op : Op)
    (h : fullOnState s) (hw : ∀ w ∈ s.writers, w.failing = false)
    (hop : okTrueOp op = true) : fullOnState (step sha s op).1 := by
  cases op with
  | logSingle now n v => exact log_single_fullOn sha s now n v h hw
  | logMap now fs => simp [okTrueOp] at hop
  | logDF now df segs pfd =>
    have hpfd : pfd = true := by
      cases pfd
      · simp [okTrueOp] at hop
      · rfl
    have hsegs : segs = none ∨ segTruthy segs = true := by
      rcases segs with _ | l
      · exact Or.inl rfl
      · refine Or.inr ?_
        cases hts : segTruthy (some l)
        · simp [okTrueOp, hts, hpfd] at hop
        · rfl
    exact log_dataframe_fullOn sha s now df segs pfd h hw hpfd hsegs
  | closeOp now => simp [okTrueOp] at hop

theorem run_fullOn (sha : String → String) :
    ∀ (ops : List Op) (s : LoggerState), fullOnState s →
      (∀ w ∈ s.writers, w.failing = false) → ops.all okTrueOp = true →
      fullOnState (run sha s ops).1 := by
  intro ops
  induction ops with
  | nil =>
    intro s h _ _
    exact h
  | cons op ops ih =>
    intro s h hw hall
    simp only [List.all_cons, Bool.and_eq_true] at hall
    have hstep := step_fullOn sha s op h hw hall.1
    have hweq := (step_cfgEq sha s op).2.2.2.2.2.1
    have hw' : ∀ w ∈ (step sha s op).1.writers, w.failing = false := by
      intro w hwmem
      rw [hweq] at hwmem
      exact hw w hwmem
    exact ih (step sha s op).1 hstep hw' hall.2

theorem set_rotation_fields (x : LoggerState) (wrt : Option String) (now : Nat)
    (s : LoggerState) (h : set_rotation x wrt now = Except.ok s) :
    s.segments = x.segments ∧ s.profile_full_dataset = x.profile_full_dataset ∧
    s.profiles = x.profiles := by
  unfold set_rotation at h
  split at h
  · cases h
    exact ⟨rfl, rfl, rfl⟩
  · split at h
    · simp at h
    · dsimp only at h
      injection h with h'
      rw [← h']
      exact ⟨rfl, rfl, rfl⟩

theorem noFullState_of_eqs {p q : LoggerState} (h1 : p.segments = q.segments)
    (h2 : p.profile_full_dataset = q.profile_full_dataset) (h3 : p.profiles = q.profiles)
    (h : noFullState q) : noFullState p := by
  refine ⟨?_, ?_, fullsNone_congr h3 h.2.2⟩
  · rw [h1]
    exact h.1
  · rw [h2]
    exact h.2.1

theorem fullOnState_of_eqs {p q : LoggerState} (h1 : p.segments = q.segments)
    (h2 : p.profile_full_dataset = q.profile_full_dataset) (h3 : p.profiles = q.profiles)
    (h : fullOnState q) : fullOnState p := by
  refine ⟨?_, ?_, ?_⟩
  · rw [h1]
    exact h.1
  · rw [h2]
    exact h.2.1
  · rw [hasFullLast_congr h3]
    exact h.2.2

theorem initSeg_modes (x : LoggerState) (dts : Option Nat) (a : SegElem) (l : List SegElem)
    (hprof0 : x.profiles = []) :
    (x.profile_full_dataset = false →
      noFullState (intialize_profiles (set_segments x (some (a :: l))) dts)) ∧
    (x.profile_full_dataset = true →
      fullOnState (intialize_profiles (set_segments x (some (a :: l))) dts)) := by
  have hsegs : (set_segments x (some (a :: l))).segments = some (a :: l) :=
    set_segments_cons_segments x a l
  have hpfd : (set_segments x (some (a :: l))).profile_full_dataset =
      x.profile_full_dataset := (set_segments_cfg x _).2.1
  have hchk : full_profile_check (set_segments x (some (a :: l))) =
      x.profile_full_dataset := by
    unfold full_profile_check
    rw [hsegs, hpfd]
    simp
  have h5 : (intialize_profiles (set_segments x (some (a :: l))) dts).segments =
      some (a :: l) := hsegs
  have h6 : (intialize_profiles (set_segments x (some (a :: l))) dts).profile_full_dataset =
      x.profile_full_dataset := hpfd
  constructor
  · intro hf
    refine ⟨?_, ?_, ?_⟩
    · rw [h5]
      rfl
    · rw [h6]
      exact hf
    · refine fullsNone_intialize _ dts (hchk.trans hf) ?_
      intro e he
      rw [(set_segments_cfg x _).2.2.2, hprof0] at he
      simp at he
  · intro ht
    refine ⟨?_, ?_, ?_⟩
    · rw [h5]
      rfl
    · rw [h6]
      exact ht
    · exact hasFullLast_intialize _ dts (hchk.trans ht)

theorem mkLogger_modes (sid dn : String) (dts sts : Option Nat)
    (tg md : List (String × String)) (ws : List Writer) (vb : Bool)
    (wrt : Option String) (iv cs : Nat) (a : SegElem) (l : List SegElem) (pfd : Bool)
    (now mts : Nat) (s : LoggerState)
    (hmk : mkLogger sid dn dts sts tg md ws vb wrt iv cs (some (a :: l)) pfd now mts
      = Except.ok s) :
    (pfd = false → noFullState s) ∧ (pfd = true → fullOnState s) := by
  unfold mkLogger at hmk
  obtain ⟨hseg, hpfd, hprof⟩ := set_rotation_fields _ wrt now s hmk
  constructor
  · intro hf
    refine noFullState_of_eqs hseg hpfd hprof ?_
    exact (initSeg_modes _ dts a l rfl).1 hf
  · intro ht
    refine fullOnState_of_eqs hseg hpfd hprof ?_
    exact (initSeg_modes _ dts a l rfl).2 ht

/-- C10 (confirmed): `set_segments` establishes the invariant that a
configured (non-empty) `segments` list always comes with `segment_type`
"keys" or "set"; every public Logger call preserves it; and under the
invariant neither `log_dataframe` (also reached by `log_csv`) nor `log`
can raise the `TypeError("segments type not supported")` of
`log_segments` — that branch is unreachable from the public interface. -/
theorem C10_segment_type_invariant :
    (∀ (s : LoggerState) (segs : Option (List SegElem)), segInv (set_segments s segs)) ∧
    (∀ (sha : String → String) (s : LoggerState) (op : Op),
      segInv s → segInv (step sha s op).1) ∧
    (∀ (sha : String → String) (s : LoggerState) (now : Nat) (df : DataFrame)
      (segs : Option (List SegElem)) (pfd : Bool), segInv s →
      (log_dataframe sha s now df segs pfd).2.2 ≠ some Err.typeErrorSegments) ∧
    (∀ (sha : String → String) (s : LoggerState) (now : Nat)
      (fs : Option (List (String × Val))) (fn : Option String) (v : Val), segInv s →
      (log sha s now fs fn v).2.2 ≠ some Err.typeErrorSegments) :=
  ⟨set_segments_segInv,
   fun sha s op h => step_segInv sha s op h,
   fun sha s now df segs pfd h => log_dataframe_no_type_err sha s now df segs pfd h,
   fun sha s now fs fn v h => log_no_type_err sha s now fs fn v h⟩

theorem C10_witness :
    segInv (set_segments baseState (some [SegElem.str "region"])) ∧
    segInv (step (fun x => x) c2State (Op.logSingle 0 "region" (Val.int 1))).1 ∧
    ((log_dataframe (fun x => x) c2State 1 { cols := ["region"], rows := [] } none
        false).2.2 ≠ some Err.typeErrorSegments) ∧
    ((log (fun x => x) c2State 2 none (some "region") (Val.int 1)).2.2 ≠
      some Err.typeErrorSegments) :=
  ⟨C10_segment_type_invariant.1 baseState (some [SegElem.str "region"]),
   C10_segment_type_invariant.2.1 (fun x => x) c2State (Op.logSingle 0 "region" (Val.int 1))
     (by decide),
   C10_segment_type_invariant.2.2.1 (fun x => x) c2State 1
     { cols := ["region"], rows := [] } none false (by decide),
   C10_segment_type_invariant.2.2.2 (fun x => x) c2State 2 none (some "region") (Val.int 1)
     (by decide)⟩

theorem C9_witness :
    get_segment (fun x => x)
      (log_df_segment (fun x => x) c9State 0 { cols := [], rows := [] }
        [⟨"b", Val.int 2⟩, ⟨"a", Val.int 1⟩])
      [⟨"b", Val.int 2⟩, ⟨"a", Val.int 1⟩] = none ∧
    (get_segment (fun x => x)
      (log_df_segment (fun x => x) c9State 0 { cols := [], rows := [] }
        [⟨"b", Val.int 2⟩, ⟨"a", Val.int 1⟩])
      (sortByKey [⟨"b", Val.int 2⟩, ⟨"a", Val.int 1⟩])).isSome = true :=
  C9_get_segment_unsorted_miss (fun x => x) c9State
    { full_profile := none, segmented_profiles := [] } 0 { cols := [], rows := [] }
    [⟨"b", Val.int 2⟩, ⟨"a", Val.int 1⟩] (by decide) rfl (by decide)

theorem set_replicate_append (k : Nat) (j : Nat) (rest : List (Option ProfileSet))
    (hj : j < k) :
    (List.replicate k (none : Option ProfileSet) ++ rest).set j none =
      List.replicate k none ++ rest := by
  induction k generalizing j with
  | zero => omega
  | succ n ih =>
    cases j with
    | zero =>
      rw [List.replicate_succ]
      rfl
    | succ i =>
      rw [List.replicate_succ]
      simp only [List.cons_append, List.set_cons_succ]
      rw [ih i (by omega)]

theorem set_replicate_append_at (k : Nat) (l₂ : List (Option ProfileSet))
    (v : Option ProfileSet) :
    (List.replicate k (none : Option ProfileSet) ++ l₂).set k v =
      List.replicate k none ++ l₂.set 0 v := by
  induction k with
  | zero => rfl
  | succ n ih =>
    rw [List.replicate_succ]
    simp only [List.cons_append, List.set_cons_succ]
    rw [ih]

theorem countP_replicate_none (k : Nat) :
    (List.replicate k (none : Option ProfileSet)).countP (fun e => e.isSome) = 0 := by
  rw [List.countP_eq_zero]
  intro e he
  rw [List.eq_of_mem_replicate he]
  simp

theorem histShape_count {s : LoggerState} (h : histShape s) :
    (s.profiles.dropLast).countP (fun e => e.isSome) ≤ 1 := by
  rcases h with ⟨k, a, hp, -⟩ | ⟨k, a, b, hp, -⟩
  · rw [hp, List.dropLast_concat, countP_replicate_none]
    exact Nat.zero_le 1
  · rw [hp, show List.replicate k (none : Option ProfileSet) ++ [some a, some b] =
      (List.replicate k none ++ [some a]) ++ [some b] by simp, List.dropLast_concat,
      List.countP_append, countP_replicate_none]
    simp

theorem trimCache_shape1 (x : LoggerState) (k : Nat) (c : Option ProfileSet)
    (hc : x.cache_size = 1) (hp : x.profiles = List.replicate k none ++ [c]) :
    (trimCache x).profiles = List.replicate k none ++ [c] := by
  unfold trimCache
  split
  · rename_i hcond
    dsimp only
    have hk : 1 ≤ k := by
      rw [hp, hc] at hcond
      simp at hcond
      omega
    rw [hp, hc]
    have hlen : (List.replicate k (none : Option ProfileSet) ++ [c]).length = k + 1 := by
      simp
    rw [hlen]
    have hidx : k + 1 - 1 - 1 = k - 1 := by omega
    rw [hidx]
    exact set_replicate_append k (k - 1) [c] (by omega)
  · exact hp

theorem trimCache_shape2 (x : LoggerState) (k : Nat) (c d : Option ProfileSet)
    (hc : x.cache_size = 1) (hp : x.profiles = List.replicate k none ++ [c, d]) :
    (trimCache x).profiles = List.replicate (k + 1) none ++ [d] := by
  unfold trimCache
  split
  · dsimp only
    rw [hp, hc]
    have hlen : (List.replicate k (none : Option ProfileSet) ++ [c, d]).length = k + 2 := by
      simp
    rw [hlen]
    have hidx : k + 2 - 1 - 1 = k := by omega
    rw [hidx]
    rw [set_replicate_append_at]
    simp [List.replicate_succ', List.append_assoc]
  · rename_i hcond
    exfalso
    rw [hp, hc] at hcond
    have hlen : (List.replicate k (none : Option ProfileSet) ++ [c, d]).length = k + 2 := by
      simp
    rw [hlen] at hcond
    omega

theorem intialize_profiles_spec (x : LoggerState) (d : Option Nat)
    (hc : full_profile_check x = true) :
    ∃ dp, (intialize_profiles x d).profiles =
      x.profiles ++ [some { full_profile := some dp, segmented_profiles := [] }] := by
  refine ⟨{ dataset_name := x.dataset_name, dataset_timestamp := d,
            session_timestamp := x.session_timestamp, tags := x.tags,
            metadata := x.metadata, session_id := x.session_id, tracked := [] }, ?_⟩
  simp [intialize_profiles, hc]

theorem rotatedState_histShape (s : LoggerState) (t : Nat) (ps : ProfileSet) (K : Nat)
    (hchk : full_profile_check s = true)
    (hK : (trimCache (setLastSet s
        (stampSegs (rotationLabel s) s (stampFull (rotationLabel s) s ps)))).profiles =
      List.replicate K none ++
        [some (stampSegs (rotationLabel s) s (stampFull (rotationLabel s) s ps))]) :
    histShape (rotatedState s ps t) := by
  have hchk2 : full_profile_check (trimCache (setLastSet s
      (stampSegs (rotationLabel s) s (stampFull (rotationLabel s) s ps)))) = true := by
    have h1 := trimCache_sameCfg (setLastSet s
      (stampSegs (rotationLabel s) s (stampFull (rotationLabel s) s ps)))
    exact (check_congr h1.2.1 h1.2.2.2.1).trans ((check_congr rfl rfl).trans hchk)
  obtain ⟨dp, hinit⟩ := intialize_profiles_spec
    (trimCache (setLastSet s
      (stampSegs (rotationLabel s) s (stampFull (rotationLabel s) s ps))))
    (some (trimCache (setLastSet s
      (stampSegs (rotationLabel s) s (stampFull (rotationLabel s) s ps)))).init_default_ts)
    hchk2
  refine Or.inr ⟨K, stampSegs (rotationLabel s) s (stampFull (rotationLabel s) s ps),
    { full_profile := some dp, segmented_profiles := [] }, ?_, rfl⟩
  show (intialize_profiles (trimCache (setLastSet s
      (stampSegs (rotationLabel s) s (stampFull (rotationLabel s) s ps))))
      (some (trimCache (setLastSet s
        (stampSegs (rotationLabel s) s (stampFull (rotationLabel s) s ps)))).init_default_ts)).profiles =
    List.replicate K none ++
      [some (stampSegs (rotationLabel s) s (stampFull (rotationLabel s) s ps)),
       some { full_profile := some dp, segmented_profiles := [] }]
  rw [hinit, hK]
  simp

theorem rotate_inv_of_shape (s : LoggerState) (t : Nat) (ps : ProfileSet) (K : Nat)
    (ha : s.active = true) (hcache : s.cache_size = 1) (hseg : s.segments = none)
    (hw : ∀ w ∈ s.writers, w.failing = false)
    (hps : lastSet s = some ps) (hfull : ps.full_profile.isSome = true)
    (hK : (trimCache (setLastSet s
        (stampSegs (rotationLabel s) s (stampFull (rotationLabel s) s ps)))).profiles =
      List.replicate K none ++
        [some (stampSegs (rotationLabel s) s (stampFull (rotationLabel s) s ps))]) :
    rotInv (rotate_time s t).1 ∧ (rotate_time s t).1.writers = s.writers ∧
    ((rotate_time s t).2.1).map (fun a => (a.widx, a.target)) =
      (List.range' 0 s.writers.length).map (fun j => (j, WTarget.full)) := by
  have hchk : full_profile_check s = true := by
    unfold full_profile_check
    rw [hseg]
    rfl
  have hguard : (full_profile_check s && ps.full_profile.isNone) = false := by
    rcases hv : ps.full_profile with _ | p
    · rw [hv] at hfull
      simp at hfull
    · simp [hv]
  have heq := rotate_time_ok s t ps ha hps hguard hw
  have hsc := rotate_time_sameCfg s t
  rw [heq] at hsc
  have hwr : (rotatedState s ps t).writers = s.writers := hsc.1.2.2.2.2.2.1
  have hshape' := rotatedState_histShape s t ps K hchk hK
  rw [heq]
  refine ⟨⟨?_, ?_, ?_, ?_, hshape'⟩, hwr, ?_⟩
  · rw [hsc.2.2.2.2]
    exact ha
  · exact (hsc.1.2.2.2.2.2.2.2.1).trans hcache
  · rw [hsc.2.1]
    exact hseg
  · intro w hwm
    rw [hwr] at hwm
    exact hw w hwm
  · show (rotatedPlanned s ps).map _ = _
    have hchk1 : full_profile_check (setLastSet s
        (stampSegs (rotationLabel s) s (stampFull (rotationLabel s) s ps))) = true := hchk
    have hseg1 : (setLastSet s
        (stampSegs (rotationLabel s) s (stampFull (rotationLabel s) s ps))).segments
        = none := hseg
    unfold rotatedPlanned planned
    rw [plannedFrom_no_segs hchk1 hseg1]
    rfl

theorem rotate_inv_step (s : LoggerState) (t : Nat) (h : rotInv s) :
    rotInv (rotate_time s t).1 ∧ (rotate_time s t).1.writers = s.writers ∧
    ((rotate_time s t).2.1).map (fun a => (a.widx, a.target)) =
      (List.range' 0 s.writers.length).map (fun j => (j, WTarget.full)) := by
  obtain ⟨ha, hcache, hseg, hw, hshape⟩ := h
  rcases hshape with ⟨k, a, hp, hfa⟩ | ⟨k, a, b, hp, hfb⟩
  · have hps : lastSet s = some a := by
      unfold lastSet
      rw [hp, List.getLast?_concat]
      rfl
    have hs1 : (setLastSet s
        (stampSegs (rotationLabel s) s (stampFull (rotationLabel s) s a))).profiles =
        List.replicate k none ++
          [some (stampSegs (rotationLabel s) s (stampFull (rotationLabel s) s a))] := by
      show s.profiles.dropLast ++ _ = _
      rw [hp, List.dropLast_concat]
    have hK := trimCache_shape1 (setLastSet s
      (stampSegs (rotationLabel s) s (stampFull (rotationLabel s) s a))) k _ hcache hs1
    exact rotate_inv_of_shape s t a k ha hcache hseg hw hps hfa hK
  · have hsplit : s.profiles = (List.replicate k none ++ [some a]) ++ [some b] := by
      rw [hp]
      simp
    have hps : lastSet s = some b := by
      unfold lastSet
      rw [hsplit, List.getLast?_concat]
      rfl
    have hs1 : (setLastSet s
        (stampSegs (rotationLabel s) s (stampFull (rotationLabel s) s b))).profiles =
        List.replicate k none ++ [some a,
          some (stampSegs (rotationLabel s) s (stampFull (rotationLabel s) s b))] := by
      show s.profiles.dropLast ++ _ = _
      rw [hsplit, List.dropLast_concat]
      simp
    have hK := trimCache_shape2 (setLastSet s
      (stampSegs (rotationLabel s) s (stampFull (rotationLabel s) s b))) k _ _ hcache hs1
    exact rotate_inv_of_shape s t b (k + 1) ha hcache hseg hw hps hfb hK

theorem runRotations_inv (ts : List Nat) : ∀ s, rotInv s →
    rotInv (runRotations s ts).1 ∧ (runRotations s ts).1.writers = s.writers ∧
    (runRotations s ts).2.length = ts.length ∧
    ∀ evs ∈ (runRotations s ts).2,
      evs.map (fun a => (a.widx, a.target)) =
        (List.range' 0 s.writers.length).map (fun j => (j, WTarget.full)) := by
  induction ts with
  | nil =>
    intro s h
    exact ⟨h, rfl, rfl, by simp [runRotations]⟩
  | cons t ts ih =>
    intro s h
    obtain ⟨hinv1, hwr1, hmap1⟩ := rotate_inv_step s t h
    obtain ⟨hinv2, hwr2, hlen2, hmap2⟩ := ih (rotate_time s t).1 hinv1
    refine ⟨hinv2, hwr2.trans hwr1, ?_, ?_⟩
    · show ((rotate_time s t).2.1 :: (runRotations (rotate_time s t).1 ts).2).length
        = ts.length + 1
      simp [hlen2]
    · intro evs hevs
      have hevs' : evs = (rotate_time s t).2.1 ∨
          evs ∈ (runRotations (rotate_time s t).1 ts).2 := by
        have hm : evs ∈ (rotate_time s t).2.1 ::
            (runRotations (rotate_time s t).1 ts).2 := hevs
        simpa using hm
      rcases hevs' with rfl | hm
      · exact hmap1
      · rw [hmap2 evs hm, hwr1]

/-- C6 (confirmed): with a (non-empty) segmentation policy configured at
construction: (1) the constructor creates the full accumulator iff
`profile_full_dataset` is on (and with it off the retained history holds
no full accumulator at all); (2) with the flag off, any history of public
calls that keeps it off (no `log_dataframe(profile_full_dataset=True)`)
never creates a full accumulator and never hands a full-profile write to
any sink; (3) with the flag on, any history of public calls that keeps it
on (batch calls pass `profile_full_dataset=True`; `log(features=...)` and
`close` are excluded because they reset the flag or pop the set) preserves
the full accumulator; (4) on such a state each rotation's flush hands the
full profile to every registered sink. -/
theorem C6_full_profile_policy :
    (∀ (sid dn : String) (dts sts : Option Nat) (tg md : List (String × String))
       (ws : List Writer) (vb : Bool) (wrt : Option String) (iv cs : Nat)
       (a : SegElem) (l : List SegElem) (pfd : Bool) (now mts : Nat) (s : LoggerState),
       mkLogger sid dn dts sts tg md ws vb wrt iv cs (some (a :: l)) pfd now mts
         = Except.ok s →
       (pfd = false → noFullState s) ∧ (pfd = true → fullOnState s)) ∧
    (∀ (sha : String → String) (s : LoggerState) (ops : List Op),
       noFullState s → ops.all okFalseOp = true →
       noFullState (run sha s ops).1 ∧
       ∀ a ∈ (run sha s ops).2, a.target ≠ WTarget.full) ∧
    (∀ (sha : String → String) (s : LoggerState) (ops : List Op),
       fullOnState s → (∀ w ∈ s.writers, w.failing = false) →
       ops.all okTrueOp = true → fullOnState (run sha s ops).1) ∧
    (∀ (s : LoggerState) (now : Nat), fullOnState s → s.active = true →
       (∀ w ∈ s.writers, w.failing = false) →
       ∀ i, i < s.writers.length →
         ∃ a ∈ (rotate_time s now).2.1, a.widx = i ∧ a.target = WTarget.full) := by
  refine ⟨?_, ?_, ?_, ?_⟩
  · intro sid dn dts sts tg md ws vb wrt iv cs a l pfd now mts s hmk
    exact mkLogger_modes sid dn dts sts tg md ws vb wrt iv cs a l pfd now mts s hmk
  · intro sha s ops h hall
    exact run_noFull sha ops s h hall
  · intro sha s ops h hw hall
    exact run_fullOn sha ops s h hw hall
  · intro s now h ha hw i hi
    exact (rotate_time_fullOn s now h ha hw).2.2 i hi

theorem C6_witness :
    fullOnState c6State ∧
    (∃ a ∈ (rotate_time c6State 100).2.1, a.widx = 0 ∧ a.target = WTarget.full) ∧
    noFullState c2State ∧
    (noFullState (run (fun x => x) c2State [Op.logSingle 0 "k" (Val.int 1)]).1 ∧
     ∀ a ∈ (run (fun x => x) c2State [Op.logSingle 0 "k" (Val.int 1)]).2,
       a.target ≠ WTarget.full) := by
  have h1 : fullOnState c6State := ⟨rfl, rfl, rfl⟩
  have h2 : noFullState c2State := by
    refine ⟨rfl, rfl, ?_⟩
    intro e he
    rw [List.mem_singleton.mp he]
    rfl
  refine ⟨h1, ?_, h2, ?_⟩
  · exact C6_full_profile_policy.2.2.2 c6State 100 h1 rfl (by decide) 0 (by decide)
  · exact C6_full_profile_policy.2.1 (fun x => x) c2State [Op.logSingle 0 "k" (Val.int 1)]
      h2 (by decide)

/-- C7 (confirmed): from any live unsegmented state with `cache_size = 1`,
healthy sinks, and the usual history shape (released `None` slots, at most
one retired set, then the active set), any sequence of rotations keeps at
most one retired profile set reachable in the retained history (every
non-final slot except possibly the last retired one has been released to
`None`), while each rotation hands exactly one full-profile write to each
registered sink, in registration order, exactly once per rotation. -/
theorem C7_bounded_retention (s : LoggerState) (ts : List Nat) (h : rotInv s) :
    ((runRotations s ts).1.profiles.dropLast).countP (fun e => e.isSome) ≤ 1 ∧
    (runRotations s ts).2.length = ts.length ∧
    ∀ evs ∈ (runRotations s ts).2,
      evs.map (fun a => (a.widx, a.target)) =
        (List.range' 0 s.writers.length).map (fun j => (j, WTarget.full)) := by
  obtain ⟨hinv, hwr, hlen, hmap⟩ := runRotations_inv ts s h
  exact ⟨histShape_count hinv.2.2.2.2, hlen, hmap⟩

theorem C7_witness :
    rotInv c7State ∧
    ((runRotations c7State [10, 20, 30]).1.profiles.dropLast).countP
        (fun e => e.isSome) ≤ 1 ∧
    (runRotations c7State [10, 20, 30]).2.length = 3 ∧
    ∀ evs ∈ (runRotations c7State [10, 20, 30]).2,
      evs.map (fun a => (a.widx, a.target)) =
        (List.range' 0 c7State.writers.length).map (fun j => (j, WTarget.full)) := by
  have h : rotInv c7State :=
    ⟨rfl, rfl, rfl, by decide, Or.inl ⟨0, { full_profile := some exProfile
                                            segmented_profiles := [] }, rfl, rfl⟩⟩
  exact ⟨h, C7_bounded_retention c7State [10, 20, 30] h⟩

end Whylogs
